import Mathlib

/-!
Verification of the Accumulated Dataset Store & Training Job Orchestrator
(defect_viewer repository) against its natural-language specification.

The Python sources are shallowly embedded: pure functions become Lean
functions over ℚ / ℤ / String; filesystem and JSON side effects become
explicit state values threaded through the definitions.  Every definition
mirrors the homonymous function of the source tree.
-/

set_option maxRecDepth 4000

namespace DefectViewer

/-! ## Python string helpers

`_norm_cls` / `_norm_key` from `app/services/session_store.py` use
`str.strip`, `str.split()` (split on whitespace runs) and `str.lower`.
We embed them over Lean strings; `pyLowerChar` implements Python
`str.lower` restricted to the character ranges appearing in this
repository (ASCII letters and the Cyrillic block А-Я / Ё). -/

def pyIsWs (c : Char) : Bool :=
  c = ' ' || c = '\t' || c = '\n' || c = '\r' || c = '\x0b' || c = '\x0c'

/-- Python `str.split()` on a list of characters: splits on runs of
whitespace, discarding empty words. -/
def pyWordsAux : List Char → List Char → List (List Char)
  | [], acc => if acc = [] then [] else [acc.reverse]
  | c :: cs, acc =>
    if pyIsWs c then
      (if acc = [] then pyWordsAux cs [] else acc.reverse :: pyWordsAux cs [])
    else
      pyWordsAux cs (c :: acc)

def pyWords (s : String) : List String :=
  (pyWordsAux s.data []).map String.mk

/-- `_norm_cls` from `session_store.py`: `" ".join(s.split())`
(strip + collapse internal whitespace). -/
def norm_cls (s : String) : String :=
  String.intercalate " " (pyWords s)

/-- Python `str.lower` for one character, on the ranges used here. -/
def pyLowerChar (c : Char) : Char :=
  if 'A' ≤ c && c ≤ 'Z' then Char.ofNat (c.toNat + 32)
  else if 0x410 ≤ c.toNat && c.toNat ≤ 0x42F then Char.ofNat (c.toNat + 0x20)
  else if c.toNat = 0x401 then Char.ofNat 0x451
  else c

def pyLower (s : String) : String :=
  String.mk (s.data.map pyLowerChar)

/-- `_norm_key` from `session_store.py`: `_norm_cls(name).lower()`. -/
def norm_key (s : String) : String :=
  pyLower (norm_cls s)

def stripLeftChars : List Char → List Char
  | [] => []
  | c :: cs => if pyIsWs c then stripLeftChars cs else c :: cs

/-- Python `str.strip()`. -/
def pyStrip (s : String) : String :=
  String.mk ((stripLeftChars ((stripLeftChars s.data).reverse)).reverse)

/-! ## JSON values

A model of the Python values handled by `json.loads` / `json.dump`:
`None`, booleans, numbers, strings, lists and dicts.  A `J.obj` models a
Python dict: insertion-ordered association list with unique keys. -/

inductive J where
  | null
  | bool (b : Bool)
  | num (q : ℚ)
  | str (s : String)
  | arr (xs : List J)
  | obj (kvs : List (String × J))

/-! ## `app/utils/json_io.py` — Atomic Record Store (claim C1)

`atomic_read_json(path, default)` observes the target file only through
(a) `p.exists()`, (b) whether the text is empty/whitespace after `strip`,
and (c) whether `json.loads` succeeds.  The file state is therefore
embedded as that classification: `missing` (no file), `blank` (content
whose `strip()` is empty), `corrupt` (non-blank content on which
`json.loads` raises), `json j` (non-blank content parsing to `j`). -/

inductive FileContent where
  | missing
  | blank
  | corrupt
  | json (j : J)

inductive PyResult (α : Type) where
  | ok (v : α)
  | exn (e : String)

/-- `atomic_read_json` from `app/utils/json_io.py` (lines 39-53).
`dflt = none` models Python `default=None`. -/
def atomic_read_json (file : FileContent) (dflt : Option J) : PyResult J :=
  match file with
  | .missing =>
    match dflt with
    | some d => .ok d
    | none => .exn "FileNotFoundError"
  | .blank =>
    match dflt with
    | some d => .ok d
    | none => .ok (J.obj [])
  | .corrupt => .exn "json.JSONDecodeError"
  | .json j => .ok j

/-! ## `app/services/session_store.py` — global class registry (claim C2)

The registry file `data/classes.json` holds `{"classes": [...]}`.  Its
state is embedded as `Option (List String)`: `none` models a missing file
or one whose `classes` entry is not a list of strings (including the
empty list, which Python treats as falsy); `some xs` models a present
list of strings `xs`.  Each operation returns the class list it hands
back to the caller together with the list it writes to the file
(`none` = no write). -/

def DEFECT_CLASSES_RU : List String :=
  ["трещины", "протечки/высолы", "оголение арматуры", "коррозия",
   "сколы/разрушения", "отслоение/обрушение", "деформация",
   "грибок/плесень", "нарушение швов", "прочее"]

/-- `get_global_classes` (session_store.py lines 144-165): the returned
list and the optional write performed. -/
def get_global_classes : Option (List String) → List String × Option (List String)
  | none => (DEFECT_CLASSES_RU, some DEFECT_CLASSES_RU)
  | some xs =>
    if xs = [] then
      (DEFECT_CLASSES_RU, some DEFECT_CLASSES_RU)
    else
      let out := (xs.map norm_cls).filter (fun x => x ≠ "")
      if out = [] then (DEFECT_CLASSES_RU, none) else (out, none)

/-- `add_global_class` (session_store.py lines 172-187). -/
def add_global_class (stored : Option (List String)) (name : String) :
    List String × Option (List String) :=
  let cls := norm_cls name
  if cls = "" then get_global_classes stored
  else
    let cur := (get_global_classes stored).1
    if norm_key cls ∈ cur.map norm_key then
      (cur, (get_global_classes stored).2)
    else
      (cur ++ [cls], some (cur ++ [cls]))

/-- The replacement/dedup loop of `rename_global_class`
(session_store.py lines 209-226): walk `cur`, replacing the first
occurrence of the key of `a` by `b`, skipping keys already seen. -/
def rename_loop (akey : String) (b : String) :
    List String → Bool → List String → List String
  | [], _, _ => []
  | x :: xs, replaced, seen =>
    let k := norm_key x
    if replaced = false ∧ k = akey then
      let k2 := norm_key b
      if k2 ∈ seen then rename_loop akey b xs true seen
      else b :: rename_loop akey b xs true (k2 :: seen)
    else
      if k ∈ seen then rename_loop akey b xs replaced seen
      else x :: rename_loop akey b xs replaced (k :: seen)

/-- `rename_global_class` (session_store.py lines 190-232); `dst`
stands for the Python parameter `to`. -/
def rename_global_class (stored : Option (List String)) (frm dst : String) :
    List String × Option (List String) :=
  let a := norm_cls frm
  let b := norm_cls dst
  if a = "" ∨ b = "" then get_global_classes stored
  else
    let cur := (get_global_classes stored).1
    let curKeys := cur.map norm_key
    if norm_key a ∉ curKeys then
      if norm_key b ∉ curKeys then
        (cur ++ [b], some (cur ++ [b]))
      else
        (cur, (get_global_classes stored).2)
    else
      let out := rename_loop (norm_key a) b cur false []
      let out2 := if out = [] then DEFECT_CLASSES_RU else out
      (out2, some out2)

/-! ## `backend/app/services/train_job_store.py` — Train Job Ledger (claim C3)

A job record as persisted by `set_job` / read by `get_job`.  Integer
fields use `0` for an absent/None value — Python's `or`-chains treat the
two identically.  The filesystem is an environment mapping a (nonempty)
log path to the mtime of an existing regular file there. -/

structure JobRecord where
  status : String
  boot_id : String
  log_path : String
  job_id : String
  updated_at_ns : Int
  created_at_ns : Int
  lost : Bool
  error_code : Option String
  message : String
deriving DecidableEq

structure LedgerEnv where
  serverBootId : String
  nowSec : ℚ
  nowNs : Int
  staleSec : Int
  fsLogMtime : String → Option ℚ

/-- The message written by `_maybe_mark_lost`. -/
def LOST_MESSAGE : String :=
  "Сервис был перезапущен или статус читается из другого воркера. " ++
  "Этот job больше не отслеживается в текущем процессе. " ++
  "Проверь лог и запусти обучение заново при необходимости."

/-- `_job_last_update_age_sec` (backend train_job_store.py lines 84-94). -/
def _job_last_update_age_sec (env : LedgerEnv) (job : JobRecord) : ℚ :=
  let last : Int :=
    if job.updated_at_ns ≠ 0 then job.updated_at_ns
    else if job.created_at_ns ≠ 0 then job.created_at_ns
    else 0
  if last ≤ 0 then ((10 : ℚ) ^ (18 : ℕ))
  else max 0 (((env.nowNs - last : Int) : ℚ) / 1000000000)

/-- The log-freshness check of `_maybe_mark_lost` (lines 116-126): the
stripped log path is nonempty, names an existing regular file, and that
file's age is within the staleness window. -/
def log_is_fresh (env : LedgerEnv) (job : JobRecord) : Bool :=
  let rawLog := pyStrip job.log_path
  if rawLog ≠ "" then
    match env.fsLogMtime rawLog with
    | some m => decide (env.nowSec - m ≤ (env.staleSec : ℚ))
    | none => false
  else false

/-- The record written by the mark-lost branch of `_maybe_mark_lost`. -/
def mark_lost_record (env : LedgerEnv) (job : JobRecord) : JobRecord :=
  { job with
    status := "error"
    lost := true
    error_code := some "lost_after_restart"
    message := LOST_MESSAGE
    updated_at_ns := env.nowNs }

/-- `_maybe_mark_lost` (backend train_job_store.py lines 97-148).
Returns the (possibly marked) record and whether it was persisted. -/
def _maybe_mark_lost (env : LedgerEnv) (job : JobRecord) : JobRecord × Bool :=
  if ¬ (pyLower (pyStrip job.status) = "queued"
        ∨ pyLower (pyStrip job.status) = "running") then (job, false)
  else if pyStrip job.boot_id = env.serverBootId then (job, false)
  else if log_is_fresh env job then (job, false)
  else if _job_last_update_age_sec env job ≤ (env.staleSec : ℚ) then (job, false)
  else (mark_lost_record env job, decide (pyStrip job.job_id ≠ ""))

/-- `get_job` (backend train_job_store.py lines 187-198): the returned
record (`none` models the `{}` returned for a blank id or an unreadable
record) and the record persisted by the staleness check, if any. -/
def get_job (env : LedgerEnv) (jobId : String) (loaded : Option JobRecord) :
    Option JobRecord × Option JobRecord :=
  if pyStrip jobId = "" then (none, none)
  else
    match loaded with
    | none => (none, none)
    | some j =>
      (some (_maybe_mark_lost env j).1,
       if (_maybe_mark_lost env j).2 then some (_maybe_mark_lost env j).1 else none)

/-! ## `session_store.py` — bbox normalization and dedup (claim C6)

Python values reaching `_safe_float` are embedded as
`Option (Option ℚ)`: `none` = key absent / value `None`,
`some none` = present but not float-convertible, `some (some q)` =
`float(v)` succeeds with value `q`.  String-typed fields are embedded as
`Option String` (`str()` applied at the boundary); opaque passthrough
fields (`source`, `polygon`) likewise. -/

/-- Python `a or b` for an optional string: `None` and `""` are falsy. -/
def pyOrStr : Option String → String → String
  | some s, d => if s = "" then d else s
  | none, d => d

/-- `_clamp01` (session_store.py lines 494-495). -/
def _clamp01 (x : ℚ) : ℚ :=
  if x < 0 then 0 else if x > 1 then 1 else x

/-- `_round6` (session_store.py lines 498-499): format to 6 decimal
places and parse back; embedded as rounding to the nearest multiple of
10⁻⁶. -/
def _round6 (x : ℚ) : ℚ :=
  ((round (x * 1000000) : ℤ) : ℚ) / 1000000

/-- `_safe_float` (session_store.py lines 502-506). -/
def _safe_float (v : Option (Option ℚ)) (dflt : ℚ) : ℚ :=
  match v with
  | some (some q) => q
  | _ => dflt

/-- `_normalize_xywh` (session_store.py lines 509-522). -/
def _normalize_xywh (x y w h : ℚ) : ℚ × ℚ × ℚ × ℚ :=
  let w1 := _clamp01 (max 0 w)
  let h1 := _clamp01 (max 0 h)
  let x1 := _clamp01 x
  let y1 := _clamp01 y
  let x2 := _clamp01 (min x1 (1 - w1))
  let y2 := _clamp01 (min y1 (1 - h1))
  (x2, y2, w1, h1)

/-- A raw bbox dict as read from a label payload.  `klass` embeds the
Python key `"class"`, `nameField` the key `"name"`. -/
structure RawBBox where
  id : Option String
  cls : Option String
  klass : Option String
  nameField : Option String
  x : Option (Option ℚ)
  y : Option (Option ℚ)
  w : Option (Option ℚ)
  h : Option (Option ℚ)
  conf : Option (Option ℚ)
  source : Option String
  polygon : Option String
deriving DecidableEq

/-- An element of the `bboxes` list: a dict or anything else (skipped). -/
inductive RawItem where
  | dict (b : RawBBox)
  | nonDict
deriving DecidableEq

/-- The canonical bbox produced by `dedupe_bboxes`. -/
structure BBoxOut where
  id : Option String
  cls : String
  x : ℚ
  y : ℚ
  w : ℚ
  h : ℚ
  conf : Option ℚ
  source : Option String
  polygon : Option String
deriving DecidableEq

/-- `_norm_cls(cls) or "прочее"` (session_store.py line 548). -/
def cls_or_other (s : String) : String :=
  if norm_cls s = "" then "прочее" else norm_cls s

/-- One loop step of `dedupe_bboxes` (session_store.py lines 543-584),
with the `seen` key set made explicit. -/
def dedupe_go : List RawItem → List (String × ℚ × ℚ × ℚ × ℚ) → List BBoxOut
  | [], _ => []
  | .nonDict :: rest, seen => dedupe_go rest seen
  | .dict b :: rest, seen =>
    let cls := cls_or_other (pyOrStr b.cls (pyOrStr b.klass (pyOrStr b.nameField "")))
    let p := _normalize_xywh (_safe_float b.x 0) (_safe_float b.y 0)
               (_safe_float b.w 0) (_safe_float b.h 0)
    let x := _round6 p.1
    let y := _round6 p.2.1
    let w := _round6 p.2.2.1
    let h := _round6 p.2.2.2
    let key := (norm_key cls, x, y, w, h)
    if key ∈ seen then dedupe_go rest seen
    else
      { id := b.id, cls := cls, x := x, y := y, w := w, h := h,
        conf := match b.conf with
                | none => none
                | some v => some (_clamp01 (_safe_float (some v) 0)),
        source := b.source, polygon := b.polygon } :: dedupe_go rest (key :: seen)

/-- `dedupe_bboxes` (session_store.py lines 525-586). -/
def dedupe_bboxes (bboxes : List RawItem) : List BBoxOut :=
  dedupe_go bboxes []

/-! ## `app/services/model_manager.py` — device resolution (claim C7)

The `torch` probe made by `_resolve_device` is embedded as its outcome:
the import failing, or `cuda.is_available()` / `cuda.device_count()`
returning the given values. -/

inductive TorchProbe where
  | importError
  | ok (avail : Bool) (count : ℕ)
deriving DecidableEq

/-- `_resolve_device` (model_manager.py lines 39-66).  `rawReq` is
`settings.INFER_DEVICE` as an optional string (`none` = absent/None). -/
def _resolve_device (rawReq : Option String) (probe : TorchProbe) :
    String × Bool :=
  let req := pyLower (pyStrip (pyOrStr rawReq "auto"))
  if req = "cpu" ∨ req = "-1" then ("cpu", false)
  else if req = "auto" ∨ req = "cuda" ∨ req = "gpu" then
    match probe with
    | .importError => ("cpu", true)
    | .ok avail count =>
      if avail = true ∧ 0 < count then ("0", false) else ("cpu", true)
  else
    match probe with
    | .importError => ("cpu", true)
    | .ok avail count =>
      if avail = true ∧ 0 < count then (req, false) else ("cpu", true)

/-! ## `app/services/dataset_builder.py` — non-empty splits (claim C8)

A directory entry is a file name split into stem and suffix (the suffix
includes its leading dot, as Python's `Path.suffix` does); directory
contents are the iteration-ordered list of regular files.  `_copy_pair`'s
filesystem effect is modelled on the four split directories; its
manifest bookkeeping (which the claim does not mention) is out of
scope of this embedding. -/

structure DirFile where
  stem : String
  ext : String
deriving DecidableEq

/-- The extension set of `_is_image_file` (dataset_builder.py line 137). -/
def IMAGE_EXTS : List String :=
  ["jpg", "jpeg", "png", "bmp", "webp", "tif", "tiff", "heic", "dng", "mpo", "pfm"]

/-- Python `.lstrip(".")`. -/
def lstripDot (s : String) : String :=
  String.mk (s.data.dropWhile (fun c => c = '.'))

/-- `_is_image_file` (dataset_builder.py lines 133-137). -/
def _is_image_file (f : DirFile) : Bool :=
  lstripDot (pyLower f.ext) ∈ IMAGE_EXTS

/-- `_list_images` (dataset_builder.py lines 140-146). -/
def _list_images (d : List DirFile) : List DirFile :=
  d.filter _is_image_file

/-- `_list_labels` (dataset_builder.py lines 149-155): `glob("*.txt")`. -/
def _list_labels (d : List DirFile) : List DirFile :=
  d.filter (fun f => f.ext = ".txt")

/-- The dict `{p.stem: p for p in ...}` looked up at `stem`: the last
entry with that stem wins. -/
def stem_lookup (lbls : List DirFile) (s : String) : Option DirFile :=
  (lbls.filter (fun f => f.stem = s)).getLast?

/-- `pick_pair` inside `_ensure_nonempty_train_val` (lines 232-237). -/
def pick_pair : List DirFile → List DirFile → Option (DirFile × DirFile)
  | [], _ => none
  | img :: rest, lbls =>
    match stem_lookup lbls img.stem with
    | some lbl => some (img, lbl)
    | none => pick_pair rest lbls

/-- `shutil.copy2` into a directory: overwrite the same-named file or
create a new one. -/
def copy_into (d : List DirFile) (f : DirFile) : List DirFile :=
  if f ∈ d then d else d ++ [f]

/-- The four split directories of the accumulated dataset. -/
structure SplitDirs where
  images_train : List DirFile
  images_val : List DirFile
  labels_train : List DirFile
  labels_val : List DirFile
deriving DecidableEq

/-- Phase 1 of `_ensure_nonempty_train_val` (lines 239-251): if `val`
holds no image and `train` does, copy one train pair into `val`. -/
def ensure_val_nonempty (s : SplitDirs) : SplitDirs :=
  if (_list_images s.images_val).length = 0
      ∧ 0 < (_list_images s.images_train).length then
    match pick_pair (_list_images s.images_train) (_list_labels s.labels_train) with
    | some p =>
      { s with images_val := copy_into s.images_val p.1,
               labels_val := copy_into s.labels_val p.2 }
    | none => s
  else s

/-- Phase 2 of `_ensure_nonempty_train_val` (lines 253-267): after
re-listing, if `train` holds no image and `val` does, copy one val pair
into `train`.  `val_lbls` is the label dict built before phase 1, as in
the source. -/
def ensure_train_nonempty (val_lbls : List DirFile) (s : SplitDirs) : SplitDirs :=
  if (_list_images s.images_train).length = 0
      ∧ 0 < (_list_images s.images_val).length then
    match pick_pair (_list_images s.images_val) val_lbls with
    | some p =>
      { s with images_train := copy_into s.images_train p.1,
               labels_train := copy_into s.labels_train p.2 }
    | none => s
  else s

/-- `_ensure_nonempty_train_val` (dataset_builder.py lines 211-267). -/
def _ensure_nonempty_train_val (s : SplitDirs) : SplitDirs :=
  ensure_train_nonempty (_list_labels s.labels_val) (ensure_val_nonempty s)

/-! ## `app/api/routes.py` — accumulated prune and stats (claim C9)

An image file under `<acc_root>/images/` is embedded with its path
identity, the label path `_match_label_for_image` derives for it (two
images with the same stem and different image extensions in one split
map to the same label path), its mtime and its size.  The label files on
disk are an association list from label path to size.  The manifest
cleanup at the end of `_accumulated_prune` rewrites `manifest.json` only
and deletes no image or label file, so it is outside this embedding. -/

structure AccImage where
  id : String
  label : String
  mtimeNs : Int
  size : ℕ
deriving DecidableEq

/-- Stable insertion preserving descending mtime order (the model of
Python's stable `sorted(..., key=mtime, reverse=True)`). -/
def insertDesc (x : AccImage) : List AccImage → List AccImage
  | [] => [x]
  | y :: ys => if y.mtimeNs > x.mtimeNs then y :: insertDesc x ys else x :: y :: ys

/-- `sorted(imgs, key=_mtime_ns, reverse=True)` (routes.py line 263). -/
def sortByMtimeDesc (l : List AccImage) : List AccImage :=
  l.foldr insertDesc []

/-- `lbl.exists()` on the modelled label files: some entry has path `p`. -/
def labelExists : List (String × ℕ) → String → Bool
  | [], _ => false
  | e :: es, p => if e.1 = p then true else labelExists es p

/-- `lbl.stat().st_size` on the modelled label files. -/
def labelSize : List (String × ℕ) → String → ℕ
  | [], _ => 0
  | e :: es, p => if e.1 = p then e.2 else labelSize es p

def removeLabel (labels : List (String × ℕ)) (p : String) : List (String × ℕ) :=
  labels.filter (fun e => e.1 ≠ p)

/-- The keep set of `_accumulated_prune` (routes.py lines 276-287):
most-recent-first prefix of length `keep_last_n` plus every image within
`max_age_days`.  Membership is set membership. -/
def keep_list (nowNs : Int) (sorted : List AccImage)
    (keepLastN maxAgeDays : Option Int) : List AccImage :=
  (match keepLastN with
   | some n => sorted.take (max 0 n).toNat
   | none => []) ++
  (match maxAgeDays with
   | some d => sorted.filter
      (fun p => p.mtimeNs ≥ nowNs - max 0 d * 86400000000000)
   | none => [])

/-- The mutable state of the prune loop: the on-disk image and label
files plus the three removal counters. -/
structure PruneState where
  images : List AccImage
  labels : List (String × ℕ)
  removed_images : ℕ
  removed_labels : ℕ
  removed_bytes : ℕ
deriving DecidableEq

/-- One iteration of the loop `for img in imgs_sorted` (routes.py
lines 293-325). -/
def prune_step (dryRun : Bool) (keep : List AccImage)
    (st : PruneState) (img : AccImage) : PruneState :=
  if img ∈ keep then st
  else
    let ex := labelExists st.labels img.label
    let bytes1 := st.removed_bytes + img.size + (if ex then labelSize st.labels img.label else 0)
    if dryRun then
      { st with
        removed_bytes := bytes1
        removed_images := st.removed_images + 1
        removed_labels := st.removed_labels + (if ex then 1 else 0) }
    else
      { images := st.images.filter (fun i => i.id ≠ img.id)
        labels := if ex then removeLabel st.labels img.label else st.labels
        removed_bytes := bytes1
        removed_images := st.removed_images + 1
        removed_labels := st.removed_labels + (if ex then 1 else 0) }

/-- The result dict of `_accumulated_prune` together with the
filesystem state it leaves behind. -/
structure PruneResult where
  removed_images : ℕ
  removed_labels : ℕ
  removed_bytes : ℕ
  kept_images : ℕ
  dry_run : Bool
  images_after : List AccImage
  labels_after : List (String × ℕ)
deriving DecidableEq

/-- `_accumulated_prune` (routes.py lines 254-343). -/
def _accumulated_prune (nowNs : Int) (fsImages : List AccImage)
    (fsLabels : List (String × ℕ)) (keepLastN maxAgeDays : Option Int)
    (dryRun : Bool) : PruneResult :=
  if keepLastN = none ∧ maxAgeDays = none then
    { removed_images := 0, removed_labels := 0, removed_bytes := 0,
      kept_images := (sortByMtimeDesc fsImages).length, dry_run := dryRun,
      images_after := fsImages, labels_after := fsLabels }
  else
    let keep := keep_list nowNs (sortByMtimeDesc fsImages) keepLastN maxAgeDays
    let fin := (sortByMtimeDesc fsImages).foldl (prune_step dryRun keep)
      ⟨fsImages, fsLabels, 0, 0, 0⟩
    { removed_images := fin.removed_images,
      removed_labels := fin.removed_labels,
      removed_bytes := fin.removed_bytes,
      kept_images := keep.dedup.length, dry_run := dryRun,
      images_after := fin.images, labels_after := fin.labels }

/-- The total image count reported by `_accumulated_stats`
(routes.py lines 189-211): `len(img_train) + len(img_val)`, i.e. every
image file under `images/`. -/
def _accumulated_stats_image_count (fsImages : List AccImage) : ℕ :=
  fsImages.length

/-! ## `session_store.py` — session shape repair (claim C10)

Python dict operations over `J.obj` (insertion-ordered association
lists with unique keys, as produced by `json.loads`). -/

def objGet (kvs : List (String × J)) (k : String) : Option J :=
  (kvs.find? (fun e => e.1 = k)).map (fun e => e.2)

/-- `d[k] = v`: overwrite in place or append. -/
def objSet : List (String × J) → String → J → List (String × J)
  | [], k, v => [(k, v)]
  | (k', v') :: rest, k, v =>
    if k' = k then (k, v) :: rest else (k', v') :: objSet rest k v

/-- `d.setdefault(k, v)`. -/
def objSetdefault (kvs : List (String × J)) (k : String) (v : J) :
    List (String × J) :=
  if kvs.any (fun e => e.1 = k) then kvs else kvs ++ [(k, v)]

/-- Python truthiness of a JSON value. -/
def jTruthy : J → Bool
  | .null => false
  | .bool b => b
  | .num q => q ≠ 0
  | .str s => s ≠ ""
  | .arr xs => !xs.isEmpty
  | .obj kvs => !kvs.isEmpty

/-- Python `str()`.  Strings, booleans and `None` render exactly; the
repr of numbers, lists and dicts is abbreviated — no property proved
below depends on those renderings. -/
def pyStr : J → String
  | .str s => s
  | .bool b => if b then "True" else "False"
  | .null => "None"
  | .num q => toString q
  | .arr _ => "[...]"
  | .obj _ => "{...}"

/-! Python `==` on JSON values: structural, order-insensitive on dicts,
with `True == 1` and `1 == 1.0` numeric cross-equality. -/
mutual

def jEq : J → J → Bool
  | .null, .null => true
  | .bool a, .bool b => a == b
  | .bool a, .num q => (if a then (1 : ℚ) else 0) == q
  | .num q, .bool b => q == (if b then (1 : ℚ) else 0)
  | .num a, .num b => a == b
  | .str a, .str b => a == b
  | .arr xs, .arr ys => jEqList xs ys
  | .obj xs, .obj ys => xs.length == ys.length && jEqObjSub xs ys
  | _, _ => false

def jEqList : List J → List J → Bool
  | [], [] => true
  | x :: xs, y :: ys => jEq x y && jEqList xs ys
  | _, _ => false

def jEqObjSub : List (String × J) → List (String × J) → Bool
  | [], _ => true
  | (k, v) :: rest, ys =>
    (match ys.find? (fun e => e.1 = k) with
     | some e => jEq v e.2
     | none => false) && jEqObjSub rest ys

end

/-- The fresh session dict built by `create_session` / the non-dict
branch of `_ensure_session_shape` (session_store.py lines 63-69 and
397-406). -/
def fresh_session (session_id : String) (baseClasses : List String)
    (now : String) : J :=
  .obj [("session_id", .str session_id), ("created_at", .str now),
        ("classes", .arr (baseClasses.map .str)), ("photos", .arr [])]

/-- `[_norm_cls(x) for x in xs if isinstance(x, str) and _norm_cls(x)]`
(session_store.py line 83). -/
def cleanClasses (xs : List J) : List String :=
  xs.filterMap (fun x =>
    match x with
    | .str s => if norm_cls s = "" then none else some (norm_cls s)
    | _ => none)

/-- One iteration of the photo repair loop of `_ensure_session_shape`
(session_store.py lines 90-118): keep a dict entry with a truthy
`photo_id`, force `labels` to a dict with the six default keys and a
list-valued `bboxes`; drop anything else. -/
def fixPhoto : J → Option J
  | .obj pkvs =>
    (match objGet pkvs "photo_id" with
     | some pid =>
       if jTruthy pid then
         let labels :=
           match objGet pkvs "labels" with
           | some (.obj l) => l
           | _ => []
         let l1 := objSetdefault labels "has_defect" .null
         let l2 := objSetdefault l1 "decision" .null
         let l3 := objSetdefault l2 "category" .null
         let l4 := objSetdefault l3 "place" .null
         let l5 := objSetdefault l4 "comment" .null
         let l6 := objSetdefault l5 "recommendedFix" .null
         let bxs :=
           match objGet l6 "bboxes" with
           | some (.arr bs) => bs
           | _ => []
         let l7 := objSet l6 "bboxes" (.arr bxs)
         some (.obj (objSet pkvs "labels" (.obj l7)))
       else none
     | none => none)
  | _ => none

/-- The photo repair loop (session_store.py lines 89-120). -/
def fixPhotos (photos : List J) : List J :=
  photos.filterMap fixPhoto

/-- The `session_id`/`created_at`/`classes` normalization of
`_ensure_session_shape` (session_store.py lines 71-84). -/
def ensure_meta (kvs : List (String × J)) (session_id : String)
    (baseClasses : List String) (now : String) : List (String × J) :=
  let sid :=
    match objGet kvs "session_id" with
    | some v => if jTruthy v then pyStr v else session_id
    | none => session_id
  let kvs1 := objSet kvs "session_id" (.str sid)
  let kvs2 :=
    if (match objGet kvs1 "created_at" with
        | some v => jTruthy v
        | none => false) then kvs1
    else objSet kvs1 "created_at" (.str now)
  match objGet kvs2 "classes" with
  | some (.arr xs) =>
    let cleaned := cleanClasses xs
    objSet kvs2 "classes"
      (.arr ((if cleaned = [] then baseClasses else cleaned).map .str))
  | _ => objSet kvs2 "classes" (.arr (baseClasses.map .str))

/-- `out.get("photos")` coerced to a list (lines 86-88). -/
def rawPhotos (kvs : List (String × J)) : List J :=
  match objGet kvs "photos" with
  | some (.arr ps) => ps
  | _ => []

/-- `_ensure_session_shape` (session_store.py lines 54-121).
`baseClasses` is the registry view `get_global_classes()` returns and
`now` the `_now_iso()` timestamp — both environment inputs. -/
def _ensure_session_shape (s : J) (session_id : String)
    (baseClasses : List String) (now : String) : J :=
  match s with
  | .obj kvs =>
    .obj (objSet (ensure_meta kvs session_id baseClasses now) "photos"
      (.arr (fixPhotos (rawPhotos (ensure_meta kvs session_id baseClasses now)))))
  | _ => fresh_session session_id baseClasses now

/-- The raw Python value `load_session` obtains from the stored file:
`{}` for blank content (the `default if default is not None else {}`
branch), `None` when reading raises. -/
def rawOf : FileContent → J
  | .missing => .null
  | .blank => .obj []
  | .corrupt => .null
  | .json j => j

/-- `load_session` (session_store.py lines 409-435): the returned
session and the content written back, if any. -/
def load_session (file : FileContent) (session_id : String)
    (baseClasses : List String) (now : String) : J × Option J :=
  match file with
  | .missing =>
    (fresh_session session_id baseClasses now,
     some (fresh_session session_id baseClasses now))
  | f =>
    (_ensure_session_shape (rawOf f) session_id baseClasses now,
     if jEq (rawOf f) (_ensure_session_shape (rawOf f) session_id baseClasses now)
     then none
     else some (_ensure_session_shape (rawOf f) session_id baseClasses now))

/-- The `photos` list of a session value. -/
def sessionPhotos (s : J) : List J :=
  match s with
  | .obj kvs =>
    match objGet kvs "photos" with
    | some (.arr ps) => ps
    | _ => []
  | _ => []

/-- A repaired photo entry: a dict with a truthy `photo_id` whose
`labels` is a dict carrying a list-valued `bboxes` key. -/
def PhotoWellShaped (p : J) : Prop :=
  ∃ pkvs, p = J.obj pkvs
    ∧ (∃ v, objGet pkvs "photo_id" = some v ∧ jTruthy v = true)
    ∧ ∃ lkvs, objGet pkvs "labels" = some (J.obj lkvs)
        ∧ ∃ bs, objGet lkvs "bboxes" = some (J.arr bs)

/-! ## `dataset_builder.py` — global dataset builder (claims C4, C5)

`_norm` / `_norm_low` of `dataset_builder.py` coincide with
`_norm_cls` / `_norm_key` of `session_store.py` and are embedded by the
same functions.  File copies and label writes are modelled as
succeeding; `_ensure_nonempty_train_val`'s manifest bookkeeping
(`_copy_pair`, lines 189-204) only rewrites `split`/`image`/`label` of
entries already present and never inserts, removes or re-keys an entry
nor touches `source_key`/`num_boxes`, so on the fields the claims C4/C5
mention it is the identity and is embedded as such. -/

/-- `_bbox_ok` (dataset_builder.py lines 57-77). -/
def _bbox_ok (b : RawBBox) : Bool :=
  if _safe_float b.w 0 ≤ 0 ∨ _safe_float b.h 0 ≤ 0 then false
  else if _safe_float b.x 0 < -(1/1000) ∨ _safe_float b.y 0 < -(1/1000) then false
  else if _safe_float b.w 0 > 1 + 1/1000 ∨ _safe_float b.h 0 > 1 + 1/1000 then false
  else if _safe_float b.x 0 > 1 + 1/1000 ∨ _safe_float b.y 0 > 1 + 1/1000 then false
  else if _safe_float b.x 0 + _safe_float b.w 0 > 1 + 1/1000
      ∨ _safe_float b.y 0 + _safe_float b.h 0 > 1 + 1/1000 then false
  else true

/-- `_xywh_to_yolo` (dataset_builder.py lines 39-47). -/
def _xywh_to_yolo (x y w h : ℚ) : ℚ × ℚ × ℚ × ℚ :=
  (_clamp01 (_clamp01 x + _clamp01 w / 2), _clamp01 (_clamp01 y + _clamp01 h / 2),
   _clamp01 w, _clamp01 h)

/-- `float(v)` raising on a present non-convertible value; an absent
key yields the default `0.0`. -/
def pyFloat : Option (Option ℚ) → Option ℚ
  | none => some 0
  | some none => none
  | some (some q) => some q

/-- The seen-set dedup of `_uniq_classes` (dataset_builder.py
lines 270-282). -/
def uniq_go : List String → List String → List String
  | [], _ => []
  | x :: xs, seen =>
    if norm_cls x = "" then uniq_go xs seen
    else if norm_key x ∈ seen then uniq_go xs seen
    else norm_cls x :: uniq_go xs (norm_key x :: seen)

def _uniq_classes (xs : List String) : List String :=
  uniq_go xs []

/-- `_ensure_prochee_last` (dataset_builder.py lines 285-303). -/
def _ensure_prochee_last (xs : List String) : List String :=
  (_uniq_classes xs).filter (fun x => norm_key x ≠ norm_key "прочее") ++ ["прочее"]

/-- `class_to_idx` (dataset_builder.py lines 694-701): the lowered-name
dict maps to the last index for a key; unknown or empty names fall back
to the index of "прочее" (or 0). -/
def cls_idx_lookup (classes : List String) (key : String) : Option ℕ :=
  ((classes.enum.filter (fun p => norm_key p.2 = key)).getLast?).map (fun p => p.1)

def fallback_idx (classes : List String) : ℕ :=
  (cls_idx_lookup classes (norm_key "прочее")).getD 0

def class_to_idx (classes : List String) (name : String) : ℕ :=
  if norm_key name = "" then fallback_idx classes
  else (cls_idx_lookup classes (norm_key name)).getD (fallback_idx classes)

/-- Hex parse of `int(s, 16)` (digits only, as in a sha256 prefix). -/
def hexDigit (c : Char) : Option ℕ :=
  if '0' ≤ c ∧ c ≤ '9' then some (c.toNat - 48)
  else if 'a' ≤ c ∧ c ≤ 'f' then some (c.toNat - 87)
  else if 'A' ≤ c ∧ c ≤ 'F' then some (c.toNat - 55)
  else none

def hexValAux : List Char → ℕ → Option ℕ
  | [], acc => some acc
  | c :: cs, acc =>
    match hexDigit c with
    | some d => hexValAux cs (acc * 16 + d)
    | none => none

def hexVal (s : String) : Option ℕ :=
  if s.data = [] then none else hexValAux s.data 0

/-- `_global_split_is_val` (dataset_builder.py lines 654-663); the seed
is taken non-negative, as configured seeds are. -/
def _global_split_is_val (imgHash : String) (seed : ℕ) : Bool :=
  (((match hexVal (String.mk (imgHash.data.take 8)) with
     | some v => v
     | none => ((imgHash.data.take 32).map Char.toNat).sum) ^^^ seed)
    &&& 0xFFFFFFFF) % 10 < 2

/-- A stored photo as scanned by the global build: its session, id,
decision, bbox list (non-list payloads coerce to `[]` upstream) and the
content hash of its resolved image file (`none` = unresolvable file or
hashing failure). -/
structure GPhoto where
  sessionId : String
  photoId : String
  decision : Option String
  bboxes : List RawItem
  imgHash : Option String
deriving DecidableEq

/-- `f"{session_id}:{photo_id}"`. -/
def srcKey (ph : GPhoto) : String :=
  ph.sessionId ++ ":" ++ ph.photoId

/-- A manifest entry (the fields the claims concern). -/
structure ManifestEntry where
  split : String
  numBoxes : ℕ
  sessionId : String
  photoId : String
  sourceKey : String
deriving DecidableEq

/-- Python dict update `manifest[k] = v`: overwrite in place or
append. -/
def dictInsert : List (String × ManifestEntry) → String → ManifestEntry →
    List (String × ManifestEntry)
  | [], k, v => [(k, v)]
  | (k', v') :: rest, k, v =>
    if k' = k then (k, v) :: rest else (k', v') :: dictInsert rest k v

def dictLookup (m : List (String × ManifestEntry)) (k : String) :
    Option ManifestEntry :=
  (m.find? (fun e => e.1 = k)).map (fun e => e.2)

/-- The number of manifest entries under key `k` (1 for a dict). -/
def countKey (m : List (String × ManifestEntry)) (k : String) : ℕ :=
  (m.filter (fun e => e.1 = k)).length

/-- The `kept` filter over a photo's bboxes (lines 767-774): keep dict
entries passing `_bbox_ok`, count dict entries failing it. -/
def split_kept : List RawItem → List RawBBox × ℕ
  | [] => ([], 0)
  | .nonDict :: rest => split_kept rest
  | .dict b :: rest =>
    if _bbox_ok b then ((split_kept rest).1.cons b, (split_kept rest).2)
    else ((split_kept rest).1, (split_kept rest).2 + 1)

/-- One label line, by its numeric content (the `f"{idx} {cx:.6f} ..."`
rendering is presentation only). -/
structure GLine where
  clsIdx : ℕ
  cx : ℚ
  cy : ℚ
  w : ℚ
  h : ℚ
deriving DecidableEq

/-- The label line of one kept bbox (lines 812-826): `None` when a
coordinate raises in `float(...)` (counted invalid). -/
def gline_of (classes : List String) (b : RawBBox) : Option GLine :=
  match pyFloat b.x, pyFloat b.y, pyFloat b.w, pyFloat b.h with
  | some x, some y, some w, some h =>
    some { clsIdx := class_to_idx classes (pyOrStr b.cls (pyOrStr b.klass "прочее")),
           cx := (_xywh_to_yolo x y w h).1, cy := (_xywh_to_yolo x y w h).2.1,
           w := (_xywh_to_yolo x y w h).2.2.1, h := (_xywh_to_yolo x y w h).2.2.2 }
  | _, _, _, _ => none

/-- The line-building loop over the kept bboxes: the lines and the
number of additional invalid boxes counted. -/
def build_lines (classes : List String) : List RawBBox → List GLine × ℕ
  | [] => ([], 0)
  | b :: bs =>
    match gline_of classes b with
    | some l => ((build_lines classes bs).1.cons l, (build_lines classes bs).2)
    | none => ((build_lines classes bs).1, (build_lines classes bs).2 + 1)

/-- The duplicate test (lines 791-796): the hash is present with a
nonempty `source_key` different from the current one. -/
def is_dup (m : List (String × ManifestEntry)) (h key : String) : Bool :=
  match dictLookup m h with
  | some e => e.sourceKey ≠ "" && e.sourceKey ≠ key
  | none => false

/-- The build counters and the manifest (`existing_hashes` mirrors the
manifest entry-for-entry in the source and is represented by the same
dict). -/
structure GState where
  manifest : List (String × ManifestEntry)
  photos_scanned : ℕ
  photos_included : ℕ
  duplicates_skipped : ℕ
  missing_files : ℕ
  total_boxes_kept : ℕ
  invalid_boxes_skipped : ℕ
deriving DecidableEq

/-- The manifest entry written for an included photo (lines 860-871). -/
def gphoto_entry (seed : ℕ) (ph : GPhoto) (h : String) (n : ℕ) : ManifestEntry :=
  { split := if _global_split_is_val h seed then "val" else "train",
    numBoxes := n, sessionId := ph.sessionId, photoId := ph.photoId,
    sourceKey := srcKey ph }

/-- The body of the per-photo loop of
`build_yolo_det_dataset_from_all_sessions` (lines 753-872). -/
def processGPhoto (classes : List String) (seed : ℕ) (st : GState)
    (ph : GPhoto) : GState :=
  if ¬ ph.decision = some "defect" then
    { st with photos_scanned := st.photos_scanned + 1 }
  else if ph.bboxes = [] then
    { st with photos_scanned := st.photos_scanned + 1 }
  else if (split_kept ph.bboxes).1 = [] then
    { st with photos_scanned := st.photos_scanned + 1,
              invalid_boxes_skipped :=
                st.invalid_boxes_skipped + (split_kept ph.bboxes).2 }
  else
    match ph.imgHash with
    | none =>
      { st with photos_scanned := st.photos_scanned + 1,
                invalid_boxes_skipped :=
                  st.invalid_boxes_skipped + (split_kept ph.bboxes).2,
                missing_files := st.missing_files + 1 }
    | some h =>
      if is_dup st.manifest h (srcKey ph) then
        { st with photos_scanned := st.photos_scanned + 1,
                  invalid_boxes_skipped :=
                    st.invalid_boxes_skipped + (split_kept ph.bboxes).2,
                  duplicates_skipped := st.duplicates_skipped + 1 }
      else if (build_lines classes (split_kept ph.bboxes).1).1 = [] then
        { st with photos_scanned := st.photos_scanned + 1,
                  invalid_boxes_skipped :=
                    st.invalid_boxes_skipped + (split_kept ph.bboxes).2
                      + (build_lines classes (split_kept ph.bboxes).1).2 }
      else
        { st with photos_scanned := st.photos_scanned + 1,
                  invalid_boxes_skipped :=
                    st.invalid_boxes_skipped + (split_kept ph.bboxes).2
                      + (build_lines classes (split_kept ph.bboxes).1).2,
                  photos_included := st.photos_included + 1,
                  total_boxes_kept := st.total_boxes_kept
                    + (build_lines classes (split_kept ph.bboxes).1).1.length,
                  manifest := dictInsert st.manifest h
                    (gphoto_entry seed ph h
                      (build_lines classes (split_kept ph.bboxes).1).1.length) }

/-- `total_objects` (lines 883-889): sum of `num_boxes` over the
manifest. -/
def totalObjects (m : List (String × ManifestEntry)) : ℕ :=
  (m.map (fun e => e.2.numBoxes)).sum

/-- The `ValueError` message of the minimum-size gate (lines 907-912). -/
def insufficientMsg (minObj totalObj : ℕ) : String :=
  "Обучение невозможно: недостаточно объектов для train.\n" ++
  "Нужно минимум: " ++ toString minObj ++ "\n" ++
  "Сейчас объектов (bbox): " ++ toString totalObj ++ "\n" ++
  "Разметь больше дефектов (decision='defect' + bbox) и попробуй снова."

/-- The outcome of a global build: the returned stats or the raised
error, plus what was persisted to disk (`manifest.json` content and the
class list written into `data.yaml`). -/
structure GlobalBuildOutcome where
  outcome : Except String GState
  persisted_manifest : List (String × ManifestEntry)
  persisted_yaml_classes : Option (List String)

/-- `classes = _ensure_prochee_last(get_global_classes())`
(dataset_builder.py line 693): the single class source for a global
build. -/
def globalClasses (stored : Option (List String)) : List String :=
  _ensure_prochee_last (get_global_classes stored).1

/-- `if min_obj <= 0: min_obj = 1` (lines 688-690). -/
def min_obj_norm (v : Int) : ℕ :=
  if v ≤ 0 then 1 else v.toNat

/-- The sessions/photos scan loop of the global build, folded over the
photos of all sessions. -/
def buildFold (stored : Option (List String))
    (m0 : List (String × ManifestEntry)) (photos : List GPhoto)
    (seed : ℕ) : GState :=
  photos.foldl (processGPhoto (globalClasses stored) seed)
    ⟨m0, 0, 0, 0, 0, 0, 0⟩

/-- `build_yolo_det_dataset_from_all_sessions` (dataset_builder.py
lines 666-945) over the scanned photos of all sessions, the stored
registry file and the initial manifest. -/
def build_yolo_det_dataset_from_all_sessions
    (storedRegistry : Option (List String))
    (initialManifest : List (String × ManifestEntry))
    (photos : List GPhoto) (seed : ℕ) (min_train_objects : Int) :
    GlobalBuildOutcome :=
  if totalObjects (buildFold storedRegistry initialManifest photos seed).manifest
      < min_obj_norm min_train_objects then
    { outcome := .error (insufficientMsg (min_obj_norm min_train_objects)
        (totalObjects
          (buildFold storedRegistry initialManifest photos seed).manifest)),
      persisted_manifest :=
        (buildFold storedRegistry initialManifest photos seed).manifest,
      persisted_yaml_classes := some (globalClasses storedRegistry) }
  else
    { outcome := .ok (buildFold storedRegistry initialManifest photos seed),
      persisted_manifest :=
        (buildFold storedRegistry initialManifest photos seed).manifest,
      persisted_yaml_classes := some (globalClasses storedRegistry) }

/-- A class list is unique under the case/whitespace normalization
`_norm_key`. -/
def NormUnique (xs : List String) : Prop :=
  (xs.map norm_key).Nodup

instance (xs : List String) : Decidable (NormUnique xs) := by
  unfold NormUnique
  exact List.nodupDecidable _

end DefectViewer

namespace DefectViewer

/-- C1 (counterexample): with a supplied default `"d"`, reading a file whose
content is not parseable JSON raises a decode error instead of returning
the default, so `atomic_read_json` does not "return d when the content is
not parseable JSON" and does "raise an exception" in that case. -/
theorem C1_counterexample :
    atomic_read_json FileContent.corrupt (some (J.str "d"))
      = PyResult.exn "json.JSONDecodeError"
    ∧ atomic_read_json FileContent.corrupt (some (J.str "d"))
      ≠ PyResult.ok (J.str "d") := by
  exact ⟨rfl, fun h => PyResult.noConfusion h⟩

/-- C1 (amended): with a supplied (non-None) default `d`,
`atomic_read_json` returns `d` for a missing file and for empty or
whitespace-only content, but raises a JSON decode error for content that
is not parseable JSON. -/
theorem C1_amended (d : J) :
    atomic_read_json FileContent.missing (some d) = PyResult.ok d
    ∧ atomic_read_json FileContent.blank (some d) = PyResult.ok d
    ∧ atomic_read_json FileContent.corrupt (some d)
        = PyResult.exn "json.JSONDecodeError" := by
  exact ⟨rfl, rfl, rfl⟩

/-- Whatever `get_global_classes` writes equals what it returns. -/
theorem get_global_classes_write_eq (stored : Option (List String))
    (l : List String) (h : (get_global_classes stored).2 = some l) :
    l = (get_global_classes stored).1 := by
  cases stored with
  | none =>
    simp [get_global_classes] at h ⊢
    exact h.symm
  | some xs =>
    by_cases hxs : xs = []
    · simp [get_global_classes, hxs] at h ⊢
      exact h.symm
    · simp only [get_global_classes, if_neg hxs] at h
      split at h <;> simp at h

/-- The rename/dedup loop always produces a list unique under
normalization whose keys avoid `seen`. -/
theorem rename_loop_nodup (akey b : String) (xs : List String) :
    ∀ (r : Bool) (seen : List String),
      ((rename_loop akey b xs r seen).map norm_key).Nodup
      ∧ ∀ a ∈ rename_loop akey b xs r seen, norm_key a ∉ seen := by
  induction xs with
  | nil => intro r seen; simp [rename_loop]
  | cons x xs ih =>
    intro r seen
    simp only [rename_loop]
    by_cases h1 : r = false ∧ norm_key x = akey
    · rw [if_pos h1]
      by_cases h2 : norm_key b ∈ seen
      · rw [if_pos h2]
        exact ih true seen
      · rw [if_neg h2]
        obtain ⟨ihn, ihs⟩ := ih true (norm_key b :: seen)
        refine ⟨List.nodup_cons.mpr ⟨?_, ihn⟩, ?_⟩
        · intro hmem
          obtain ⟨a, ha, hka⟩ := List.mem_map.mp hmem
          exact (ihs a ha) (hka ▸ List.mem_cons_self _ _)
        · intro a ha
          rcases List.mem_cons.mp ha with rfl | ha'
          · exact h2
          · exact fun hs => (ihs a ha') (List.mem_cons_of_mem _ hs)
    · rw [if_neg h1]
      by_cases h2 : norm_key x ∈ seen
      · rw [if_pos h2]
        exact ih r seen
      · rw [if_neg h2]
        obtain ⟨ihn, ihs⟩ := ih r (norm_key x :: seen)
        refine ⟨List.nodup_cons.mpr ⟨?_, ihn⟩, ?_⟩
        · intro hmem
          obtain ⟨a, ha, hka⟩ := List.mem_map.mp hmem
          exact (ihs a ha) (hka ▸ List.mem_cons_self _ _)
        · intro a ha
          rcases List.mem_cons.mp ha with rfl | ha'
          · exact h2
          · exact fun hs => (ihs a ha') (List.mem_cons_of_mem _ hs)

/-- C2 (counterexample): starting from the default registry (whose last
element is the sentinel "прочее"), `add_global_class` of a new class name
persists a list whose last element is the new name, not "прочее" — the
sentinel is not kept last by registry operations. -/
theorem C2_counterexample :
    (add_global_class (some DEFECT_CLASSES_RU) "новый дефект").2
        = some (DEFECT_CLASSES_RU ++ ["новый дефект"])
    ∧ (DEFECT_CLASSES_RU ++ ["новый дефект"]).getLast? = some "новый дефект"
    ∧ "новый дефект" ≠ "прочее" := by
  refine ⟨?_, ?_, ?_⟩ <;> decide

/-- C2 (amended): after `add_global_class` and `rename_global_class` on a
registry whose read view is unique under case/whitespace normalization,
the returned class list is again unique under that normalization, and any
list the operation persists is exactly the returned one (hence also
unique).  The sentinel "прочее" however is not guaranteed to stay last
(see the counterexample). -/
theorem C2_amended (stored : Option (List String)) (name frm dst : String)
    (hu : NormUnique (get_global_classes stored).1) :
    NormUnique (add_global_class stored name).1
    ∧ (∀ l, (add_global_class stored name).2 = some l →
        l = (add_global_class stored name).1)
    ∧ NormUnique (rename_global_class stored frm dst).1
    ∧ (∀ l, (rename_global_class stored frm dst).2 = some l →
        l = (rename_global_class stored frm dst).1) := by
  have hD : NormUnique DEFECT_CLASSES_RU := by decide
  have happend : ∀ (cur : List String) (c : String), NormUnique cur →
      norm_key c ∉ cur.map norm_key → NormUnique (cur ++ [c]) := by
    intro cur c hcur hnm
    unfold NormUnique at hcur ⊢
    simp only [List.map_append, List.map_cons, List.map_nil]
    rw [List.nodup_append]
    refine ⟨hcur, List.nodup_singleton _, ?_⟩
    intro a ha hb
    simp only [List.mem_singleton] at hb
    subst hb
    exact hnm ha
  refine ⟨?_, ?_, ?_, ?_⟩
  · unfold add_global_class
    by_cases h0 : norm_cls name = ""
    · simpa [h0] using hu
    · simp only [if_neg h0]
      by_cases hmem :
          norm_key (norm_cls name) ∈ ((get_global_classes stored).1).map norm_key
      · simpa [hmem] using hu
      · simp only [if_neg hmem]
        exact happend _ _ hu hmem
  · unfold add_global_class
    by_cases h0 : norm_cls name = ""
    · simp only [if_pos h0]
      exact fun l h => get_global_classes_write_eq stored l h
    · simp only [if_neg h0]
      by_cases hmem :
          norm_key (norm_cls name) ∈ ((get_global_classes stored).1).map norm_key
      · simp only [if_pos hmem]
        intro l h
        exact get_global_classes_write_eq stored l h
      · simp only [if_neg hmem]
        intro l h
        simp only [Option.some.injEq] at h
        exact h.symm
  · unfold rename_global_class
    by_cases h0 : norm_cls frm = "" ∨ norm_cls dst = ""
    · simpa [h0] using hu
    · simp only [if_neg h0]
      by_cases ha :
          norm_key (norm_cls frm) ∉ ((get_global_classes stored).1).map norm_key
      · simp only [if_pos ha]
        by_cases hb :
            norm_key (norm_cls dst) ∉ ((get_global_classes stored).1).map norm_key
        · simp only [if_pos hb]
          exact happend _ _ hu hb
        · rw [if_neg hb]
          exact hu
      · simp only [if_neg ha]
        by_cases hz :
            rename_loop (norm_key (norm_cls frm)) (norm_cls dst)
              ((get_global_classes stored).1) false [] = []
        · simpa [hz] using hD
        · simp only [if_neg hz]
          exact (rename_loop_nodup _ _ _ false []).1
  · unfold rename_global_class
    by_cases h0 : norm_cls frm = "" ∨ norm_cls dst = ""
    · simp only [if_pos h0]
      exact fun l h => get_global_classes_write_eq stored l h
    · simp only [if_neg h0]
      by_cases ha :
          norm_key (norm_cls frm) ∉ ((get_global_classes stored).1).map norm_key
      · simp only [if_pos ha]
        by_cases hb :
            norm_key (norm_cls dst) ∉ ((get_global_classes stored).1).map norm_key
        · simp only [if_pos hb]
          intro l h
          simp only [Option.some.injEq] at h
          exact h.symm
        · simp only [if_neg hb]
          intro l h
          exact get_global_classes_write_eq stored l h
      · simp only [if_neg ha]
        intro l h
        simp only [Option.some.injEq] at h
        exact h.symm

/-- C3: a queued/running record with a foreign boot identity, whose log
file and record are both outside the staleness window, is returned with
terminal status "error" and the distinguishing markers
`lost`/`error_code = "lost_after_restart"`, and is persisted immediately;
a later read of the persisted record (under any environment) returns it
unchanged with no further write, so repeated reads are idempotent.  A
queued/running record updated within the window — via its log file or the
record itself — is returned unchanged and nothing is persisted. -/
theorem C3_staleness (env env2 : LedgerEnv) (j : JobRecord) (jid : String)
    (hjid : pyStrip jid ≠ "")
    (hs : pyLower (pyStrip j.status) = "queued"
          ∨ pyLower (pyStrip j.status) = "running")
    (hb : pyStrip j.boot_id ≠ env.serverBootId) :
    (log_is_fresh env j = false →
      ¬ _job_last_update_age_sec env j ≤ (env.staleSec : ℚ) →
      pyStrip j.job_id ≠ "" →
      ∃ m : JobRecord,
        _maybe_mark_lost env j = (m, true)
        ∧ m.status = "error" ∧ m.lost = true
        ∧ m.error_code = some "lost_after_restart"
        ∧ get_job env jid (some j) = (some m, some m)
        ∧ get_job env2 jid (some m) = (some m, none))
    ∧ ((log_is_fresh env j = true
        ∨ _job_last_update_age_sec env j ≤ (env.staleSec : ℚ)) →
      get_job env jid (some j) = (some j, none)) := by
  have hcond1 : ¬ ¬ (pyLower (pyStrip j.status) = "queued"
      ∨ pyLower (pyStrip j.status) = "running") := not_not_intro hs
  constructor
  · intro hlog hrec hid
    have hmark : _maybe_mark_lost env j = (mark_lost_record env j, true) := by
      unfold _maybe_mark_lost
      rw [if_neg hcond1, if_neg hb, if_neg (by simp [hlog]), if_neg hrec]
      simp [hid]
    have hmark2 :
        _maybe_mark_lost env2 (mark_lost_record env j)
          = (mark_lost_record env j, false) := by
      have hterm : ¬ (pyLower (pyStrip (mark_lost_record env j).status) = "queued"
          ∨ pyLower (pyStrip (mark_lost_record env j).status) = "running") := by
        have he : pyLower (pyStrip (mark_lost_record env j).status) = "error" := rfl
        rw [he]
        decide
      unfold _maybe_mark_lost
      rw [if_pos hterm]
    refine ⟨mark_lost_record env j, hmark, rfl, rfl, rfl, ?_, ?_⟩
    · simp [get_job, if_neg hjid, hmark]
    · simp [get_job, if_neg hjid, hmark2]
  · intro hfresh
    have hmark : _maybe_mark_lost env j = (j, false) := by
      rcases hfresh with hlog | hrec
      · unfold _maybe_mark_lost
        rw [if_neg hcond1, if_neg hb, if_pos hlog]
      · cases hlf : log_is_fresh env j with
        | true =>
          unfold _maybe_mark_lost
          rw [if_neg hcond1, if_neg hb, if_pos hlf]
        | false =>
          unfold _maybe_mark_lost
          rw [if_neg hcond1, if_neg hb, if_neg (by simp [hlf]), if_pos hrec]
    simp [get_job, if_neg hjid, hmark]

/-- Concrete ledger environment for the C3 witness: a fresh boot id, a
120 s staleness window and no log files on disk. -/
def sampleLedgerEnv : LedgerEnv :=
  { serverBootId := "boot-new", nowSec := 1000, nowNs := 1000000000000,
    staleSec := 120, fsLogMtime := fun _ => none }

/-- Concrete job record for the C3 witness: running, owned by a dead
boot id, last updated 300 s ago. -/
def sampleLostJob : JobRecord :=
  { status := "running", boot_id := "boot-old", log_path := "",
    job_id := "train_1", updated_at_ns := 700000000000,
    created_at_ns := 0, lost := false, error_code := none, message := "" }

/-- Witness for C3 at a concrete ledger environment: a running record
owned by a dead boot id with no log file and a record age of 300 s
against a 120 s window. -/
theorem C3_staleness_witness :
    pyStrip "train_1" ≠ ""
    ∧ (pyLower (pyStrip sampleLostJob.status) = "queued"
        ∨ pyLower (pyStrip sampleLostJob.status) = "running")
    ∧ pyStrip sampleLostJob.boot_id ≠ sampleLedgerEnv.serverBootId
    ∧ log_is_fresh sampleLedgerEnv sampleLostJob = false
    ∧ ¬ _job_last_update_age_sec sampleLedgerEnv sampleLostJob
        ≤ (sampleLedgerEnv.staleSec : ℚ)
    ∧ pyStrip sampleLostJob.job_id ≠ ""
    ∧ ∃ m : JobRecord,
        _maybe_mark_lost sampleLedgerEnv sampleLostJob = (m, true)
        ∧ m.status = "error" ∧ m.lost = true
        ∧ m.error_code = some "lost_after_restart"
        ∧ get_job sampleLedgerEnv "train_1" (some sampleLostJob) = (some m, some m)
        ∧ get_job sampleLedgerEnv "train_1" (some m) = (some m, none) := by
  have hage : _job_last_update_age_sec sampleLedgerEnv sampleLostJob = 300 := by
    norm_num [_job_last_update_age_sec, sampleLedgerEnv, sampleLostJob]
  have hrec : ¬ _job_last_update_age_sec sampleLedgerEnv sampleLostJob
      ≤ (sampleLedgerEnv.staleSec : ℚ) := by
    rw [hage]
    norm_num [sampleLedgerEnv]
  refine ⟨by decide, by decide, by decide, by decide, hrec, by decide, ?_⟩
  exact (C3_staleness sampleLedgerEnv sampleLedgerEnv sampleLostJob "train_1"
    (by decide) (by decide) (by decide)).1 (by decide) hrec (by decide)

theorem _clamp01_nonneg (x : ℚ) : 0 ≤ _clamp01 x := by
  unfold _clamp01
  split_ifs <;> linarith

theorem _clamp01_le_one (x : ℚ) : _clamp01 x ≤ 1 := by
  unfold _clamp01
  split_ifs <;> linarith

theorem _clamp01_le (x b : ℚ) (hb0 : 0 ≤ b) (hb1 : b ≤ 1) (hx : x ≤ b) :
    _clamp01 x ≤ b := by
  unfold _clamp01
  split_ifs <;> linarith

/-- The normalized quadruple is inside `[0,1]` and the box fits the
frame exactly (before rounding). -/
theorem _normalize_xywh_spec (x y w h : ℚ) :
    0 ≤ (_normalize_xywh x y w h).1 ∧ (_normalize_xywh x y w h).1 ≤ 1
    ∧ 0 ≤ (_normalize_xywh x y w h).2.1 ∧ (_normalize_xywh x y w h).2.1 ≤ 1
    ∧ 0 ≤ (_normalize_xywh x y w h).2.2.1 ∧ (_normalize_xywh x y w h).2.2.1 ≤ 1
    ∧ 0 ≤ (_normalize_xywh x y w h).2.2.2 ∧ (_normalize_xywh x y w h).2.2.2 ≤ 1
    ∧ (_normalize_xywh x y w h).1 + (_normalize_xywh x y w h).2.2.1 ≤ 1
    ∧ (_normalize_xywh x y w h).2.1 + (_normalize_xywh x y w h).2.2.2 ≤ 1 := by
  have hx2 : _clamp01 (min (_clamp01 x) (1 - _clamp01 (max 0 w)))
      ≤ 1 - _clamp01 (max 0 w) :=
    _clamp01_le _ _ (by linarith [_clamp01_le_one (max 0 w)])
      (by linarith [_clamp01_nonneg (max 0 w)]) (min_le_right _ _)
  have hy2 : _clamp01 (min (_clamp01 y) (1 - _clamp01 (max 0 h)))
      ≤ 1 - _clamp01 (max 0 h) :=
    _clamp01_le _ _ (by linarith [_clamp01_le_one (max 0 h)])
      (by linarith [_clamp01_nonneg (max 0 h)]) (min_le_right _ _)
  exact ⟨_clamp01_nonneg _, _clamp01_le_one _, _clamp01_nonneg _,
    _clamp01_le_one _, _clamp01_nonneg _, _clamp01_le_one _,
    _clamp01_nonneg _, _clamp01_le_one _, by
      show _clamp01 (min (_clamp01 x) (1 - _clamp01 (max 0 w)))
        + _clamp01 (max 0 w) ≤ 1
      linarith, by
      show _clamp01 (min (_clamp01 y) (1 - _clamp01 (max 0 h)))
        + _clamp01 (max 0 h) ≤ 1
      linarith⟩

theorem round_mono_q {a b : ℚ} (hab : a ≤ b) : round a ≤ round b := by
  rw [round_eq, round_eq]
  exact Int.floor_le_floor (by linarith)

theorem _round6_nonneg {x : ℚ} (hx : 0 ≤ x) : 0 ≤ _round6 x := by
  unfold _round6
  have h0 : (0 : ℤ) ≤ round (x * 1000000) := by
    have h00 := round_mono_q (by linarith : (0 : ℚ) ≤ x * 1000000)
    rwa [round_zero] at h00
  have : (0 : ℚ) ≤ ((round (x * 1000000) : ℤ) : ℚ) := by exact_mod_cast h0
  positivity

theorem _round6_le_one {x : ℚ} (hx : x ≤ 1) : _round6 x ≤ 1 := by
  unfold _round6
  have h1 : round (x * 1000000) ≤ round ((1000000 : ℚ)) :=
    round_mono_q (by linarith)
  have h2 : round ((1000000 : ℚ)) = 1000000 := by simp
  rw [div_le_one (by norm_num)]
  exact_mod_cast h1.trans_eq h2

theorem _round6_le_add (x : ℚ) : _round6 x ≤ x + 1 / 2000000 := by
  unfold _round6
  have h := abs_sub_round (x * 1000000)
  rw [abs_le] at h
  rw [div_le_iff₀ (by norm_num : (0 : ℚ) < 1000000)]
  have h2 : (round (x * 1000000) : ℚ) ≤ x * 1000000 + 1 / 2 := by
    linarith [h.1, h.2]
  linarith

/-- C6: every bbox produced by `dedupe_bboxes` — for arbitrary raw input
values, numeric or not — has all four coordinates clamped to `[0,1]`
and fits inside the frame up to the `ε = 10⁻⁶` rounding tolerance of
`_round6`. -/
theorem C6_bbox_bounds (bboxes : List RawItem) (b : BBoxOut)
    (hb : b ∈ dedupe_bboxes bboxes) :
    (0 ≤ b.x ∧ b.x ≤ 1) ∧ (0 ≤ b.y ∧ b.y ≤ 1)
    ∧ (0 ≤ b.w ∧ b.w ≤ 1) ∧ (0 ≤ b.h ∧ b.h ≤ 1)
    ∧ b.x + b.w ≤ 1 + 1 / 1000000 ∧ b.y + b.h ≤ 1 + 1 / 1000000 := by
  unfold dedupe_bboxes at hb
  revert hb
  generalize ([] : List (String × ℚ × ℚ × ℚ × ℚ)) = seen
  induction bboxes generalizing seen with
  | nil => intro h; simp [dedupe_go] at h
  | cons it rest ih =>
    intro h
    cases it with
    | nonDict => exact ih seen (by simpa [dedupe_go] using h)
    | dict bb =>
      simp only [dedupe_go] at h
      split at h
      · exact ih seen h
      · rcases List.mem_cons.mp h with rfl | h'
        · obtain ⟨n1, n2, n3, n4, n5, n6, n7, n8, n9, n10⟩ :=
            _normalize_xywh_spec (_safe_float bb.x 0) (_safe_float bb.y 0)
              (_safe_float bb.w 0) (_safe_float bb.h 0)
          refine ⟨⟨_round6_nonneg n1, _round6_le_one n2⟩,
            ⟨_round6_nonneg n3, _round6_le_one n4⟩,
            ⟨_round6_nonneg n5, _round6_le_one n6⟩,
            ⟨_round6_nonneg n7, _round6_le_one n8⟩, ?_, ?_⟩
          · have a1 := _round6_le_add
              ((_normalize_xywh (_safe_float bb.x 0) (_safe_float bb.y 0)
                (_safe_float bb.w 0) (_safe_float bb.h 0)).1)
            have a2 := _round6_le_add
              ((_normalize_xywh (_safe_float bb.x 0) (_safe_float bb.y 0)
                (_safe_float bb.w 0) (_safe_float bb.h 0)).2.2.1)
            show _round6 _ + _round6 _ ≤ 1 + 1 / 1000000
            linarith
          · have a1 := _round6_le_add
              ((_normalize_xywh (_safe_float bb.x 0) (_safe_float bb.y 0)
                (_safe_float bb.w 0) (_safe_float bb.h 0)).2.1)
            have a2 := _round6_le_add
              ((_normalize_xywh (_safe_float bb.x 0) (_safe_float bb.y 0)
                (_safe_float bb.w 0) (_safe_float bb.h 0)).2.2.2)
            show _round6 _ + _round6 _ ≤ 1 + 1 / 1000000
            linarith
        · exact ih _ h'

/-- Concrete raw bbox for the C6 witness: an oversized width and a
non-numeric height. -/
def sampleRawBBox : RawBBox where
  id := none
  cls := some "трещины"
  klass := none
  nameField := none
  x := some (some (1/2))
  y := some (some (1/2))
  w := some (some (7/10))
  h := some none
  conf := none
  source := none
  polygon := none

/-- Witness for C6: the concrete bbox is clamped into the frame. -/
theorem C6_bbox_bounds_witness :
    ∃ b ∈ dedupe_bboxes [RawItem.dict sampleRawBBox],
      (0 ≤ b.x ∧ b.x ≤ 1) ∧ (0 ≤ b.y ∧ b.y ≤ 1)
      ∧ (0 ≤ b.w ∧ b.w ≤ 1) ∧ (0 ≤ b.h ∧ b.h ≤ 1)
      ∧ b.x + b.w ≤ 1 + 1 / 1000000 ∧ b.y + b.h ≤ 1 + 1 / 1000000 := by
  obtain ⟨b, l, he⟩ :
      ∃ b l, dedupe_bboxes [RawItem.dict sampleRawBBox] = b :: l := by
    rw [dedupe_bboxes, dedupe_go]
    rw [if_neg (List.not_mem_nil _)]
    exact ⟨_, _, rfl⟩
  have hb : b ∈ dedupe_bboxes [RawItem.dict sampleRawBBox] := by
    rw [he]
    exact List.mem_cons_self _ _
  exact ⟨b, hb, C6_bbox_bounds _ b hb⟩

/-- C7 (counterexample): with one CUDA device available, an explicitly
requested device index "5" — out of range — is returned verbatim by
`_resolve_device`, not replaced by device index 0. -/
theorem C7_counterexample :
    _resolve_device (some "5") (TorchProbe.ok true 1) = ("5", false)
    ∧ ("5" : String) ≠ "0" := by
  exact ⟨by decide, by decide⟩

/-- C7 (amended): "cpu" (and "-1") is always honored as-is;
"auto"/"cuda"/"gpu" resolves to device "0" when the CUDA probe reports
an available device and otherwise falls back to "cpu" with the
auto-fallback flag set; any other request (an explicit device index) is
returned verbatim whenever the probe reports an available device —
regardless of whether the index is in range — and otherwise falls back
to "cpu" with the flag set. -/
theorem C7_amended (raw : Option String) (probe : TorchProbe) :
    (pyLower (pyStrip (pyOrStr raw "auto")) = "cpu"
      ∨ pyLower (pyStrip (pyOrStr raw "auto")) = "-1" →
      _resolve_device raw probe = ("cpu", false))
    ∧ (pyLower (pyStrip (pyOrStr raw "auto")) = "auto"
        ∨ pyLower (pyStrip (pyOrStr raw "auto")) = "cuda"
        ∨ pyLower (pyStrip (pyOrStr raw "auto")) = "gpu" →
      _resolve_device raw probe
        = match probe with
          | .importError => ("cpu", true)
          | .ok avail count =>
            if avail = true ∧ 0 < count then ("0", false) else ("cpu", true))
    ∧ (¬ (pyLower (pyStrip (pyOrStr raw "auto")) = "cpu"
          ∨ pyLower (pyStrip (pyOrStr raw "auto")) = "-1") →
       ¬ (pyLower (pyStrip (pyOrStr raw "auto")) = "auto"
          ∨ pyLower (pyStrip (pyOrStr raw "auto")) = "cuda"
          ∨ pyLower (pyStrip (pyOrStr raw "auto")) = "gpu") →
      _resolve_device raw probe
        = match probe with
          | .importError => ("cpu", true)
          | .ok avail count =>
            if avail = true ∧ 0 < count then
              (pyLower (pyStrip (pyOrStr raw "auto")), false)
            else ("cpu", true)) := by
  refine ⟨?_, ?_, ?_⟩
  · intro h
    unfold _resolve_device
    rw [if_pos h]
  · intro h
    unfold _resolve_device
    have hne : ¬ (pyLower (pyStrip (pyOrStr raw "auto")) = "cpu"
        ∨ pyLower (pyStrip (pyOrStr raw "auto")) = "-1") := by
      rcases h with h | h | h <;> rw [h] <;> decide
    rw [if_neg hne, if_pos h]
  · intro h1 h2
    unfold _resolve_device
    rw [if_neg h1, if_neg h2]

/-- Witness for C7 at the three concrete requests "cpu", "auto" (no
CUDA), and index "5" with one device. -/
theorem C7_amended_witness :
    _resolve_device (some "cpu") (TorchProbe.ok true 4) = ("cpu", false)
    ∧ _resolve_device (some "auto") TorchProbe.importError = ("cpu", true)
    ∧ _resolve_device (some "5") (TorchProbe.ok true 1) = ("5", false) := by
  refine ⟨?_, ?_, ?_⟩
  · exact (C7_amended (some "cpu") (TorchProbe.ok true 4)).1 (by decide)
  · exact ((C7_amended (some "auto") TorchProbe.importError).2.1 (by decide)).trans rfl
  · exact (((C7_amended (some "5") (TorchProbe.ok true 1)).2.2 (by decide)
      (by decide)).trans (by decide))

theorem pick_pair_img_mem {imgs lbls : List DirFile} {p : DirFile × DirFile}
    (h : pick_pair imgs lbls = some p) : p.1 ∈ imgs := by
  induction imgs with
  | nil => simp [pick_pair] at h
  | cons img rest ih =>
    rw [pick_pair] at h
    cases hs : stem_lookup lbls img.stem with
    | some lbl =>
      rw [hs] at h
      simp only [Option.some.injEq] at h
      rw [← h]
      exact List.mem_cons_self _ _
    | none =>
      rw [hs] at h
      exact List.mem_cons_of_mem _ (ih h)

theorem copy_into_mem (d : List DirFile) (f : DirFile) : f ∈ copy_into d f := by
  unfold copy_into
  split
  · assumption
  · simp

theorem list_images_ne_nil_of_mem {d : List DirFile} {f : DirFile}
    (hf : f ∈ d) (hi : _is_image_file f = true) : _list_images d ≠ [] :=
  List.ne_nil_of_mem (List.mem_filter.mpr ⟨hf, hi⟩)

/-- C8 (counterexample): `_ensure_nonempty_train_val` — the final step of
every `build_accumulated_dataset_for_session` run — does not always leave
both splits non-empty: on an empty corpus it does nothing, and when the
non-empty split has no image with a paired label file (here `a.jpg`
without `a.txt`) no sample is migrated and `images/val` stays empty. -/
theorem C8_counterexample :
    _ensure_nonempty_train_val ⟨[], [], [], []⟩ = ⟨[], [], [], []⟩
    ∧ _list_images (_ensure_nonempty_train_val ⟨[], [], [], []⟩).images_val = []
    ∧ _ensure_nonempty_train_val ⟨[⟨"a", ".jpg"⟩], [], [], []⟩
        = ⟨[⟨"a", ".jpg"⟩], [], [], []⟩
    ∧ _list_images (_ensure_nonempty_train_val
        ⟨[⟨"a", ".jpg"⟩], [], [], []⟩).images_val = [] := by
  refine ⟨?_, ?_, ?_, ?_⟩ <;> decide

/-- C8 (amended): whenever one split directory holds no image and the
other holds an image with a paired label file, `_ensure_nonempty_train_val`
migrates that image+label pair into the empty split, after which both
split directories are non-empty; without such a pair (or with both splits
empty) the empty split may remain empty. -/
theorem C8_amended (s : SplitDirs) :
    (_list_images s.images_val = [] →
      ∀ p : DirFile × DirFile,
        pick_pair (_list_images s.images_train) (_list_labels s.labels_train)
          = some p →
        _list_images (_ensure_nonempty_train_val s).images_val ≠ []
        ∧ _list_images (_ensure_nonempty_train_val s).images_train ≠ []
        ∧ p.1 ∈ (_ensure_nonempty_train_val s).images_val)
    ∧ (_list_images s.images_train = [] →
      ∀ p : DirFile × DirFile,
        pick_pair (_list_images s.images_val) (_list_labels s.labels_val)
          = some p →
        _list_images (_ensure_nonempty_train_val s).images_train ≠ []
        ∧ _list_images (_ensure_nonempty_train_val s).images_val ≠ []
        ∧ p.1 ∈ (_ensure_nonempty_train_val s).images_train) := by
  constructor
  · intro hv p hp
    have hmem := pick_pair_img_mem hp
    have himg : _is_image_file p.1 = true := (List.mem_filter.mp hmem).2
    have hmem' : p.1 ∈ s.images_train := (List.mem_filter.mp hmem).1
    have hpos : 0 < (_list_images s.images_train).length :=
      List.length_pos.mpr (List.ne_nil_of_mem hmem)
    have h1 : ensure_val_nonempty s =
        { s with images_val := copy_into s.images_val p.1,
                 labels_val := copy_into s.labels_val p.2 } := by
      unfold ensure_val_nonempty
      rw [if_pos ⟨by rw [hv]; rfl, hpos⟩, hp]
    have h2 : _ensure_nonempty_train_val s =
        { s with images_val := copy_into s.images_val p.1,
                 labels_val := copy_into s.labels_val p.2 } := by
      unfold _ensure_nonempty_train_val
      rw [h1]
      unfold ensure_train_nonempty
      have hpos' : 0 < (_list_images
          ({ s with images_val := copy_into s.images_val p.1,
                    labels_val := copy_into s.labels_val p.2 }
            : SplitDirs).images_train).length := hpos
      rw [if_neg (fun hc => absurd hc.1 (by omega))]
    rw [h2]
    exact ⟨list_images_ne_nil_of_mem (copy_into_mem _ _) himg,
      List.ne_nil_of_mem hmem, copy_into_mem _ _⟩
  · intro ht p hp
    have hmem := pick_pair_img_mem hp
    have himg : _is_image_file p.1 = true := (List.mem_filter.mp hmem).2
    have hvpos : 0 < (_list_images s.images_val).length :=
      List.length_pos.mpr (List.ne_nil_of_mem hmem)
    have h1 : ensure_val_nonempty s = s := by
      unfold ensure_val_nonempty
      rw [if_neg (fun hc => absurd hc.1 (by omega))]
    have h2 : _ensure_nonempty_train_val s =
        { s with images_train := copy_into s.images_train p.1,
                 labels_train := copy_into s.labels_train p.2 } := by
      unfold _ensure_nonempty_train_val
      rw [h1]
      unfold ensure_train_nonempty
      rw [if_pos ⟨by rw [ht]; rfl, hvpos⟩, hp]
    rw [h2]
    exact ⟨list_images_ne_nil_of_mem (copy_into_mem _ _) himg,
      List.ne_nil_of_mem hmem, copy_into_mem _ _⟩

/-- Concrete split state for the C8 witness: `train` holds `a.jpg` with
its label `a.txt`, `val` is empty. -/
def sampleSplitDirs : SplitDirs :=
  ⟨[⟨"a", ".jpg"⟩], [], [⟨"a", ".txt"⟩], []⟩

/-- Witness for C8 (amended) at the concrete split state. -/
theorem C8_amended_witness :
    _list_images sampleSplitDirs.images_val = []
    ∧ pick_pair (_list_images sampleSplitDirs.images_train)
        (_list_labels sampleSplitDirs.labels_train)
        = some (⟨"a", ".jpg"⟩, ⟨"a", ".txt"⟩)
    ∧ (_list_images (_ensure_nonempty_train_val sampleSplitDirs).images_val ≠ []
       ∧ _list_images (_ensure_nonempty_train_val sampleSplitDirs).images_train ≠ []
       ∧ (⟨"a", ".jpg"⟩ : DirFile)
          ∈ (_ensure_nonempty_train_val sampleSplitDirs).images_val) := by
  refine ⟨by decide, by decide, ?_⟩
  exact (C8_amended sampleSplitDirs).1 (by decide) (⟨"a", ".jpg"⟩, ⟨"a", ".txt"⟩)
    (by decide)

theorem labelExists_removeLabel_ne (L : List (String × ℕ)) (p q : String)
    (h : p ≠ q) : labelExists (removeLabel L q) p = labelExists L p := by
  induction L with
  | nil => rfl
  | cons e es ih =>
    unfold removeLabel at ih ⊢
    rw [List.filter_cons]
    by_cases he : e.1 = q
    · have hep : ¬ e.1 = p := fun hc => h (hc.symm.trans he)
      rw [if_neg (by simp [he]), ih, labelExists, if_neg hep]
    · rw [if_pos (by simp [he]), labelExists, labelExists, ih]

theorem labelSize_removeLabel_ne (L : List (String × ℕ)) (p q : String)
    (h : p ≠ q) : labelSize (removeLabel L q) p = labelSize L p := by
  induction L with
  | nil => rfl
  | cons e es ih =>
    unfold removeLabel at ih ⊢
    rw [List.filter_cons]
    by_cases he : e.1 = q
    · have hep : ¬ e.1 = p := fun hc => h (hc.symm.trans he)
      rw [if_neg (by simp [he]), ih, labelSize, if_neg hep]
    · rw [if_pos (by simp [he]), labelSize, labelSize, ih]

/-- Dry-run frame: the fold with `dry_run=True` never changes the image
or label files. -/
theorem prune_fold_dry_frame (keep : List AccImage) (l : List AccImage) :
    ∀ st : PruneState,
      (l.foldl (prune_step true keep) st).images = st.images
      ∧ (l.foldl (prune_step true keep) st).labels = st.labels := by
  induction l with
  | nil => intro st; exact ⟨rfl, rfl⟩
  | cons x xs ih =>
    intro st
    rw [List.foldl_cons]
    have hstep : (prune_step true keep st x).images = st.images
        ∧ (prune_step true keep st x).labels = st.labels := by
      unfold prune_step
      split
      · exact ⟨rfl, rfl⟩
      · exact ⟨rfl, rfl⟩
    exact ⟨(ih _).1.trans hstep.1, (ih _).2.trans hstep.2⟩

/-- Both dry and real run remove (or report) exactly the non-kept
images. -/
theorem prune_fold_removed_images (d : Bool) (keep : List AccImage)
    (l : List AccImage) :
    ∀ st : PruneState,
      (l.foldl (prune_step d keep) st).removed_images
        = st.removed_images + (l.filter (fun i => i ∉ keep)).length := by
  induction l with
  | nil => intro st; simp
  | cons x xs ih =>
    intro st
    rw [List.foldl_cons, ih, List.filter_cons]
    by_cases hx : x ∈ keep
    · have h1 : prune_step d keep st x = st := by
        unfold prune_step
        rw [if_pos hx]
      rw [h1, if_neg (by simp [hx])]
    · have h1 : (prune_step d keep st x).removed_images
          = st.removed_images + 1 := by
        unfold prune_step
        rw [if_neg hx]
        cases d
        · rfl
        · rfl
      rw [h1, if_pos (by simp [hx]), List.length_cons]
      omega

/-- Dry and real run report the same removed-label and removed-byte
counts as long as the non-kept images carry pairwise distinct label
paths. -/
theorem prune_fold_counts_eq (keep : List AccImage) (l : List AccImage) :
    ∀ (stD stR : PruneState) (removed : List String),
      (∀ p, p ∉ removed →
        labelExists stR.labels p = labelExists stD.labels p
        ∧ labelSize stR.labels p = labelSize stD.labels p) →
      stD.removed_labels = stR.removed_labels →
      stD.removed_bytes = stR.removed_bytes →
      (∀ i ∈ l, i ∉ keep → i.label ∉ removed) →
      List.Pairwise (fun a b => a.label ≠ b.label)
        (l.filter (fun i => i ∉ keep)) →
      (l.foldl (prune_step true keep) stD).removed_labels
        = (l.foldl (prune_step false keep) stR).removed_labels
      ∧ (l.foldl (prune_step true keep) stD).removed_bytes
        = (l.foldl (prune_step false keep) stR).removed_bytes := by
  induction l with
  | nil => intro stD stR removed _ h2 h3 _ _; exact ⟨h2, h3⟩
  | cons x xs ih =>
    intro stD stR removed hinv h2 h3 hdisj hpw
    rw [List.foldl_cons, List.foldl_cons]
    by_cases hx : x ∈ keep
    · have e1 : prune_step true keep stD x = stD := by
        unfold prune_step
        rw [if_pos hx]
      have e2 : prune_step false keep stR x = stR := by
        unfold prune_step
        rw [if_pos hx]
      rw [e1, e2]
      refine ih stD stR removed hinv h2 h3
        (fun i hi hik => hdisj i (List.mem_cons_of_mem _ hi) hik) ?_
      rw [List.filter_cons, if_neg (by simp [hx])] at hpw
      exact hpw
    · have hxl : x.label ∉ removed := hdisj x (List.mem_cons_self _ _) hx
      have hex : labelExists stR.labels x.label = labelExists stD.labels x.label :=
        (hinv x.label hxl).1
      have hsz : labelSize stR.labels x.label = labelSize stD.labels x.label :=
        (hinv x.label hxl).2
      rw [List.filter_cons, if_pos (by simp [hx])] at hpw
      obtain ⟨hhead, htail⟩ := List.pairwise_cons.mp hpw
      have hDlab : (prune_step true keep stD x).labels = stD.labels := by
        unfold prune_step
        rw [if_neg hx]
        rfl
      have hRlab : (prune_step false keep stR x).labels
          = if labelExists stR.labels x.label then
              removeLabel stR.labels x.label else stR.labels := by
        unfold prune_step
        rw [if_neg hx]
        rfl
      have hDl : (prune_step true keep stD x).removed_labels
          = stD.removed_labels
            + (if labelExists stD.labels x.label then 1 else 0) := by
        unfold prune_step
        rw [if_neg hx]
        rfl
      have hRl : (prune_step false keep stR x).removed_labels
          = stR.removed_labels
            + (if labelExists stR.labels x.label then 1 else 0) := by
        unfold prune_step
        rw [if_neg hx]
        rfl
      have hDb : (prune_step true keep stD x).removed_bytes
          = stD.removed_bytes + x.size
            + (if labelExists stD.labels x.label then
                labelSize stD.labels x.label else 0) := by
        unfold prune_step
        rw [if_neg hx]
        rfl
      have hRb : (prune_step false keep stR x).removed_bytes
          = stR.removed_bytes + x.size
            + (if labelExists stR.labels x.label then
                labelSize stR.labels x.label else 0) := by
        unfold prune_step
        rw [if_neg hx]
        rfl
      refine ih _ _ (x.label :: removed) ?_ ?_ ?_ ?_ htail
      · intro p hp
        have hp1 : p ≠ x.label := fun hc => hp (hc ▸ List.mem_cons_self _ _)
        have hp2 : p ∉ removed := fun hc => hp (List.mem_cons_of_mem _ hc)
        rw [hDlab, hRlab]
        by_cases hexx : labelExists stR.labels x.label = true
        · rw [if_pos hexx]
          exact ⟨(labelExists_removeLabel_ne _ _ _ hp1).trans (hinv p hp2).1,
            (labelSize_removeLabel_ne _ _ _ hp1).trans (hinv p hp2).2⟩
        · rw [if_neg hexx]
          exact hinv p hp2
      · rw [hDl, hRl, hex, h2]
      · rw [hDb, hRb, hex, hsz, h3]
      · intro i hi hik
        have hne : x.label ≠ i.label :=
          hhead i (List.mem_filter.mpr ⟨hi, by simp [hik]⟩)
        have hnr : i.label ∉ removed := hdisj i (List.mem_cons_of_mem _ hi) hik
        intro hc
        rcases List.mem_cons.mp hc with hc1 | hc2
        · exact hne hc1.symm
        · exact hnr hc2

/-- Concrete corpus for the C9 counterexample: `a.jpg` and `a.png` in
one split share the label path `a.txt`. -/
def sharedStemImages : List AccImage :=
  [⟨"images/train/a.jpg", "labels/train/a.txt", 5, 100⟩,
   ⟨"images/train/a.png", "labels/train/a.txt", 4, 50⟩]

def sharedStemLabels : List (String × ℕ) :=
  [("labels/train/a.txt", 10)]

/-- C9 (counterexample): on a corpus where two image files share a stem
(hence the same matched label path), `_accumulated_prune(keep_last_n=0,
dry_run=True)` reports `removed_labels = 2` and
`removed_bytes = 170`, but the non-dry run with the same arguments
deletes only one label file and reports `removed_labels = 1`,
`removed_bytes = 160` — the dry-run counts do not match what a real run
deletes. -/
theorem C9_counterexample :
    (_accumulated_prune 0 sharedStemImages sharedStemLabels (some 0) none
        true).removed_labels = 2
    ∧ (_accumulated_prune 0 sharedStemImages sharedStemLabels (some 0) none
        false).removed_labels = 1
    ∧ (_accumulated_prune 0 sharedStemImages sharedStemLabels (some 0) none
        true).removed_bytes = 170
    ∧ (_accumulated_prune 0 sharedStemImages sharedStemLabels (some 0) none
        false).removed_bytes = 160
    ∧ (_accumulated_prune 0 sharedStemImages sharedStemLabels (some 0) none
        true).images_after = sharedStemImages
    ∧ (_accumulated_prune 0 sharedStemImages sharedStemLabels (some 0) none
        true).labels_after = sharedStemLabels := by
  refine ⟨?_, ?_, ?_, ?_, ?_, ?_⟩ <;> decide

/-- C9 (amended): a dry run deletes no image and no label file and
reports the same `removed_images` count as a real run with the same
arguments; the `removed_labels` and `removed_bytes` counts also match
the real run whenever the non-kept images carry pairwise distinct
label paths (in particular whenever no two images share a stem) — with
a shared label path the dry run over-reports labels and bytes (see the
counterexample).  A follow-up stats call after a dry run therefore
still counts every image. -/
theorem C9_amended (nowNs : Int) (images : List AccImage)
    (labels : List (String × ℕ)) (kn md : Option Int) :
    (_accumulated_prune nowNs images labels kn md true).images_after = images
    ∧ (_accumulated_prune nowNs images labels kn md true).labels_after = labels
    ∧ _accumulated_stats_image_count
        (_accumulated_prune nowNs images labels kn md true).images_after
        = _accumulated_stats_image_count images
    ∧ (_accumulated_prune nowNs images labels kn md true).removed_images
        = (_accumulated_prune nowNs images labels kn md false).removed_images
    ∧ (List.Pairwise (fun a b => a.label ≠ b.label)
        ((sortByMtimeDesc images).filter
          (fun i => i ∉ keep_list nowNs (sortByMtimeDesc images) kn md)) →
      (_accumulated_prune nowNs images labels kn md true).removed_labels
        = (_accumulated_prune nowNs images labels kn md false).removed_labels
      ∧ (_accumulated_prune nowNs images labels kn md true).removed_bytes
        = (_accumulated_prune nowNs images labels kn md false).removed_bytes) := by
  by_cases h0 : kn = none ∧ md = none
  · unfold _accumulated_prune
    rw [if_pos h0, if_pos h0]
    exact ⟨rfl, rfl, rfl, rfl, fun _ => ⟨rfl, rfl⟩⟩
  · unfold _accumulated_prune
    rw [if_neg h0, if_neg h0]
    refine ⟨(prune_fold_dry_frame _ _ _).1, (prune_fold_dry_frame _ _ _).2,
      ?_, ?_, ?_⟩
    · unfold _accumulated_stats_image_count
      dsimp only
      rw [(prune_fold_dry_frame _ _ _).1]
    · dsimp only
      rw [prune_fold_removed_images, prune_fold_removed_images]
    · intro hpw
      dsimp only
      exact prune_fold_counts_eq _ _
        ⟨images, labels, 0, 0, 0⟩ ⟨images, labels, 0, 0, 0⟩ []
        (fun p _ => ⟨rfl, rfl⟩) rfl rfl
        (fun i _ _ => List.not_mem_nil _) hpw

/-- Concrete 5-image corpus (distinct stems, each with a label file) for
the C9 witness. -/
def fiveImages : List AccImage :=
  [⟨"images/train/p1.jpg", "labels/train/p1.txt", 10, 100⟩,
   ⟨"images/train/p2.jpg", "labels/train/p2.txt", 9, 100⟩,
   ⟨"images/train/p3.jpg", "labels/train/p3.txt", 8, 100⟩,
   ⟨"images/val/p4.jpg", "labels/val/p4.txt", 7, 100⟩,
   ⟨"images/val/p5.jpg", "labels/val/p5.txt", 6, 100⟩]

def fiveLabels : List (String × ℕ) :=
  [("labels/train/p1.txt", 10), ("labels/train/p2.txt", 10),
   ("labels/train/p3.txt", 10), ("labels/val/p4.txt", 10),
   ("labels/val/p5.txt", 10)]

/-- Witness for C9 (amended): `prune(keep_last_n=0, dry_run=True)` on
the 5-image corpus deletes nothing, reports `removed_images = 5` —
exactly what the real run would remove — and a follow-up stats call
still counts 5 images. -/
theorem C9_amended_witness :
    ((_accumulated_prune 0 fiveImages fiveLabels (some 0) none
        true).images_after = fiveImages
      ∧ (_accumulated_prune 0 fiveImages fiveLabels (some 0) none
          true).labels_after = fiveLabels
      ∧ _accumulated_stats_image_count
          (_accumulated_prune 0 fiveImages fiveLabels (some 0) none
            true).images_after
          = _accumulated_stats_image_count fiveImages
      ∧ (_accumulated_prune 0 fiveImages fiveLabels (some 0) none
          true).removed_images
          = (_accumulated_prune 0 fiveImages fiveLabels (some 0) none
            false).removed_images
      ∧ ((_accumulated_prune 0 fiveImages fiveLabels (some 0) none
          true).removed_labels
          = (_accumulated_prune 0 fiveImages fiveLabels (some 0) none
            false).removed_labels
        ∧ (_accumulated_prune 0 fiveImages fiveLabels (some 0) none
            true).removed_bytes
          = (_accumulated_prune 0 fiveImages fiveLabels (some 0) none
            false).removed_bytes))
    ∧ (_accumulated_prune 0 fiveImages fiveLabels (some 0) none
        true).removed_images = 5
    ∧ _accumulated_stats_image_count
        (_accumulated_prune 0 fiveImages fiveLabels (some 0) none
          true).images_after = 5 := by
  have h := C9_amended 0 fiveImages fiveLabels (some 0) none
  exact ⟨⟨h.1, h.2.1, h.2.2.1, h.2.2.2.1, h.2.2.2.2 (by decide)⟩,
    by decide, by decide⟩

theorem objGet_objSet_self (kvs : List (String × J)) (k : String) (v : J) :
    objGet (objSet kvs k v) k = some v := by
  induction kvs with
  | nil => simp [objSet, objGet]
  | cons e rest ih =>
    obtain ⟨k', v'⟩ := e
    unfold objSet
    by_cases h : k' = k
    · rw [if_pos h]
      simp [objGet]
    · rw [if_neg h]
      unfold objGet at ih ⊢
      rw [List.find?_cons_of_neg _ (by simp [h])]
      exact ih

theorem objGet_objSet_ne (kvs : List (String × J)) (k k' : String) (v : J)
    (h : k' ≠ k) : objGet (objSet kvs k v) k' = objGet kvs k' := by
  induction kvs with
  | nil => simp [objSet, objGet, Ne.symm h]
  | cons e rest ih =>
    obtain ⟨k0, v0⟩ := e
    unfold objSet
    by_cases h0 : k0 = k
    · rw [if_pos h0]
      unfold objGet
      rw [List.find?_cons_of_neg _ (by simp [Ne.symm h]),
        List.find?_cons_of_neg _ (by simp [h0]; exact Ne.symm h)]
    · rw [if_neg h0]
      unfold objGet at ih ⊢
      by_cases h1 : k0 = k'
      · rw [List.find?_cons_of_pos _ (by simp [h1]),
          List.find?_cons_of_pos _ (by simp [h1])]
      · rw [List.find?_cons_of_neg _ (by simp [h1]),
          List.find?_cons_of_neg _ (by simp [h1])]
        exact ih

theorem sessionPhotos_objSet (kvs : List (String × J)) (ps : List J) :
    sessionPhotos (.obj (objSet kvs "photos" (.arr ps))) = ps := by
  show (match objGet (objSet kvs "photos" (J.arr ps)) "photos" with
        | some (J.arr ps) => ps
        | _ => []) = ps
  rw [objGet_objSet_self]

/-- Every photo entry surviving the repair loop is well-shaped. -/
theorem fixPhotos_wellShaped (ps : List J) :
    ∀ p ∈ fixPhotos ps, PhotoWellShaped p := by
  intro p hp
  obtain ⟨a, ha, hfa⟩ := List.mem_filterMap.mp hp
  cases a with
  | obj pkvs =>
    cases hpid : objGet pkvs "photo_id" with
    | some pid =>
      simp only [fixPhoto, hpid] at hfa
      by_cases ht : jTruthy pid = true
      · rw [if_pos ht] at hfa
        simp only [Option.some.injEq] at hfa
        refine ⟨_, hfa.symm, ⟨pid, ?_, ht⟩, _, objGet_objSet_self _ _ _,
          _, objGet_objSet_self _ _ _⟩
        rw [objGet_objSet_ne _ _ _ _ (by decide)]
        exact hpid
      · rw [if_neg ht] at hfa
        exact Option.noConfusion hfa
    | none =>
      simp only [fixPhoto, hpid] at hfa
      exact Option.noConfusion hfa
  | null => exact Option.noConfusion hfa
  | bool b => exact Option.noConfusion hfa
  | num q => exact Option.noConfusion hfa
  | str s => exact Option.noConfusion hfa
  | arr xs => exact Option.noConfusion hfa

theorem sessionPhotos_fresh (sid : String) (base : List String) (now : String) :
    sessionPhotos (fresh_session sid base now) = [] := rfl

/-- Every photo of a repaired session is well-shaped. -/
theorem ensure_session_shape_photos (s : J) (sid : String)
    (base : List String) (now : String) :
    ∀ p ∈ sessionPhotos (_ensure_session_shape s sid base now),
      PhotoWellShaped p := by
  cases s with
  | obj kvs =>
    intro p hp
    rw [_ensure_session_shape, sessionPhotos_objSet] at hp
    exact fixPhotos_wellShaped _ p hp
  | null =>
    intro p hp
    have h0 : sessionPhotos (_ensure_session_shape J.null sid base now) = [] := rfl
    rw [h0] at hp
    exact absurd hp (List.not_mem_nil p)
  | bool b =>
    intro p hp
    have h0 : sessionPhotos (_ensure_session_shape (J.bool b) sid base now)
        = [] := rfl
    rw [h0] at hp
    exact absurd hp (List.not_mem_nil p)
  | num q =>
    intro p hp
    have h0 : sessionPhotos (_ensure_session_shape (J.num q) sid base now)
        = [] := rfl
    rw [h0] at hp
    exact absurd hp (List.not_mem_nil p)
  | str s =>
    intro p hp
    have h0 : sessionPhotos (_ensure_session_shape (J.str s) sid base now)
        = [] := rfl
    rw [h0] at hp
    exact absurd hp (List.not_mem_nil p)
  | arr xs =>
    intro p hp
    have h0 : sessionPhotos (_ensure_session_shape (J.arr xs) sid base now)
        = [] := rfl
    rw [h0] at hp
    exact absurd hp (List.not_mem_nil p)

/-- `load_session` on a present file, unfolded. -/
theorem load_session_present (f : FileContent) (sid : String)
    (base : List String) (now : String) (hf : f ≠ FileContent.missing) :
    load_session f sid base now
      = (_ensure_session_shape (rawOf f) sid base now,
         if jEq (rawOf f) (_ensure_session_shape (rawOf f) sid base now) = true
         then none
         else some (_ensure_session_shape (rawOf f) sid base now)) := by
  cases f with
  | missing => exact absurd rfl hf
  | blank => rfl
  | corrupt => rfl
  | json j => rfl

/-- C10: for every stored session content — missing, blank, corrupt or
arbitrarily shaped JSON — the session `load_session` returns carries only
photo entries that are dicts with a truthy `photo_id` and a dict-valued
`labels` holding a list-valued `bboxes` (entries that are not dicts or
lack a `photo_id` having been dropped by the repair), and the repaired
session is written back to disk exactly when it differs (Python `!=`)
from the stored value. -/
theorem C10_load_session_shape (file : FileContent) (sid : String)
    (base : List String) (now : String) :
    (∀ p ∈ sessionPhotos (load_session file sid base now).1, PhotoWellShaped p)
    ∧ (file ≠ FileContent.missing →
        (jEq (rawOf file) (load_session file sid base now).1 = false →
          (load_session file sid base now).2
            = some (load_session file sid base now).1)
        ∧ (jEq (rawOf file) (load_session file sid base now).1 = true →
          (load_session file sid base now).2 = none)) := by
  cases hf : file with
  | missing =>
    constructor
    · intro p hp
      have h0 : (load_session FileContent.missing sid base now).1
          = fresh_session sid base now := rfl
      rw [h0, sessionPhotos_fresh] at hp
      exact absurd hp (List.not_mem_nil p)
    · intro h
      exact absurd rfl h
  | blank =>
    have hl := load_session_present FileContent.blank sid base now
      (fun hc => FileContent.noConfusion hc)
    rw [hl]
    refine ⟨ensure_session_shape_photos (rawOf FileContent.blank) sid base now, fun _ => ⟨?_, ?_⟩⟩
    · intro hne
      rw [if_neg (by simp only [hne]; exact Bool.false_ne_true)]
    · intro heq
      rw [if_pos heq]
  | corrupt =>
    have hl := load_session_present FileContent.corrupt sid base now
      (fun hc => FileContent.noConfusion hc)
    rw [hl]
    refine ⟨ensure_session_shape_photos (rawOf FileContent.corrupt) sid base now, fun _ => ⟨?_, ?_⟩⟩
    · intro hne
      rw [if_neg (by simp only [hne]; exact Bool.false_ne_true)]
    · intro heq
      rw [if_pos heq]
  | json j =>
    have hl := load_session_present (FileContent.json j) sid base now
      (fun hc => FileContent.noConfusion hc)
    rw [hl]
    refine ⟨ensure_session_shape_photos (rawOf (FileContent.json j)) sid base now, fun _ => ⟨?_, ?_⟩⟩
    · intro hne
      rw [if_neg (by simp only [hne]; exact Bool.false_ne_true)]
    · intro heq
      rw [if_pos heq]

/-- Concrete stored session for the C10 witness: a well-formed photo, a
photo without `photo_id` and a non-dict entry. -/
def sampleStoredSession : J :=
  J.obj [("photos",
    J.arr [J.obj [("photo_id", J.str "p1")],
           J.obj [("original_name", J.str "x.jpg")],
           J.str "junk"])]

/-- Witness for C10 at the concrete stored session. -/
theorem C10_load_session_shape_witness :
    FileContent.json sampleStoredSession ≠ FileContent.missing
    ∧ (∀ p ∈ sessionPhotos (load_session (FileContent.json sampleStoredSession)
        "s1" ["прочее"] "t0").1, PhotoWellShaped p)
    ∧ jEq (rawOf (FileContent.json sampleStoredSession))
        (load_session (FileContent.json sampleStoredSession)
          "s1" ["прочее"] "t0").1 = false
    ∧ (load_session (FileContent.json sampleStoredSession) "s1" ["прочее"] "t0").2
        = some (load_session (FileContent.json sampleStoredSession)
            "s1" ["прочее"] "t0").1 := by
  have h := C10_load_session_shape (FileContent.json sampleStoredSession)
    "s1" ["прочее"] "t0"
  have hne : jEq (rawOf (FileContent.json sampleStoredSession))
      (load_session (FileContent.json sampleStoredSession)
        "s1" ["прочее"] "t0").1 = false := by decide
  exact ⟨fun hc => FileContent.noConfusion hc, h.1, hne,
    (h.2 (fun hc => FileContent.noConfusion hc)).1 hne⟩

theorem dictInsert_lookup_self (m : List (String × ManifestEntry))
    (k : String) (v : ManifestEntry) :
    dictLookup (dictInsert m k v) k = some v := by
  induction m with
  | nil => simp [dictInsert, dictLookup]
  | cons e rest ih =>
    obtain ⟨k', v'⟩ := e
    unfold dictInsert
    by_cases h : k' = k
    · rw [if_pos h]
      simp [dictLookup]
    · rw [if_neg h]
      unfold dictLookup at ih ⊢
      rw [List.find?_cons_of_neg _ (by simp [h])]
      exact ih

theorem dictInsert_lookup_ne (m : List (String × ManifestEntry))
    (k k' : String) (v : ManifestEntry) (h : k' ≠ k) :
    dictLookup (dictInsert m k v) k' = dictLookup m k' := by
  induction m with
  | nil => simp [dictInsert, dictLookup, Ne.symm h]
  | cons e rest ih =>
    obtain ⟨k0, v0⟩ := e
    unfold dictInsert
    by_cases h0 : k0 = k
    · rw [if_pos h0]
      unfold dictLookup
      rw [List.find?_cons_of_neg _ (by simp [Ne.symm h]),
        List.find?_cons_of_neg _ (by simp [h0]; exact Ne.symm h)]
    · rw [if_neg h0]
      unfold dictLookup at ih ⊢
      by_cases h1 : k0 = k'
      · rw [List.find?_cons_of_pos _ (by simp [h1]),
          List.find?_cons_of_pos _ (by simp [h1])]
      · rw [List.find?_cons_of_neg _ (by simp [h1]),
          List.find?_cons_of_neg _ (by simp [h1])]
        exact ih

theorem countKey_dictInsert_zero (m : List (String × ManifestEntry))
    (k : String) (v : ManifestEntry) (h : countKey m k = 0) :
    countKey (dictInsert m k v) k = 1 := by
  induction m with
  | nil => simp [dictInsert, countKey]
  | cons e rest ih =>
    obtain ⟨k0, v0⟩ := e
    unfold countKey at h ⊢
    rw [List.filter_cons] at h
    by_cases h0 : k0 = k
    · rw [if_pos (by simp [h0])] at h
      simp at h
    · rw [if_neg (by simp [h0])] at h
      unfold dictInsert
      rw [if_neg h0, List.filter_cons, if_neg (by simp [h0])]
      exact ih h

theorem countKey_dictInsert_pos (m : List (String × ManifestEntry))
    (k : String) (v : ManifestEntry) (h : 0 < countKey m k) :
    countKey (dictInsert m k v) k = countKey m k := by
  induction m with
  | nil => simp [countKey] at h
  | cons e rest ih =>
    obtain ⟨k0, v0⟩ := e
    unfold countKey at h ⊢
    rw [List.filter_cons] at h
    unfold dictInsert
    by_cases h0 : k0 = k
    · rw [if_pos h0, List.filter_cons, if_pos (by simp),
        List.filter_cons, if_pos (by simp [h0])]
      simp
    · rw [if_neg h0, List.filter_cons, if_neg (by simp [h0]),
        List.filter_cons, if_neg (by simp [h0])]
      rw [if_neg (by simp [h0])] at h
      exact ih h

theorem countKey_dictInsert_ne (m : List (String × ManifestEntry))
    (k k' : String) (v : ManifestEntry) (h : k' ≠ k) :
    countKey (dictInsert m k v) k' = countKey m k' := by
  induction m with
  | nil => simp [dictInsert, countKey, Ne.symm h]
  | cons e rest ih =>
    obtain ⟨k0, v0⟩ := e
    unfold dictInsert
    by_cases h0 : k0 = k
    · rw [if_pos h0]
      unfold countKey
      rw [List.filter_cons, List.filter_cons,
        if_neg (by simp; exact Ne.symm h), if_neg (by simp [h0]; exact Ne.symm h)]
    · rw [if_neg h0]
      unfold countKey at ih ⊢
      rw [List.filter_cons, List.filter_cons]
      by_cases h1 : k0 = k'
      · rw [if_pos (by simp [h1]), if_pos (by simp [h1])]
        simp only [List.length_cons]
        rw [ih]
      · rw [if_neg (by simp [h1]), if_neg (by simp [h1])]
        exact ih

theorem countKey_zero_lookup (m : List (String × ManifestEntry))
    (k : String) (h : countKey m k = 0) : dictLookup m k = none := by
  induction m with
  | nil => rfl
  | cons e rest ih =>
    obtain ⟨k0, v0⟩ := e
    unfold countKey at h
    rw [List.filter_cons] at h
    by_cases h0 : k0 = k
    · rw [if_pos (by simp [h0])] at h
      simp at h
    · rw [if_neg (by simp [h0])] at h
      unfold dictLookup
      rw [List.find?_cons_of_neg _ (by simp [h0])]
      exact ih h

/-- The manifest entry under `h` and its multiplicity when the photo's
hash is not `h`: untouched by the loop body. -/
theorem processGPhoto_other_hash (classes : List String) (seed : ℕ)
    (st : GState) (ph : GPhoto) (h : String) (hph : ph.imgHash ≠ some h) :
    dictLookup (processGPhoto classes seed st ph).manifest h
      = dictLookup st.manifest h
    ∧ countKey (processGPhoto classes seed st ph).manifest h
      = countKey st.manifest h := by
  unfold processGPhoto
  split
  · exact ⟨rfl, rfl⟩
  · split
    · exact ⟨rfl, rfl⟩
    · split
      · exact ⟨rfl, rfl⟩
      · split
        · exact ⟨rfl, rfl⟩
        · next h' heq =>
          have hne : h ≠ h' := fun hc => hph (hc ▸ heq)
          split
          · exact ⟨rfl, rfl⟩
          · split
            · exact ⟨rfl, rfl⟩
            · exact ⟨dictInsert_lookup_ne _ _ _ _ hne,
                countKey_dictInsert_ne _ _ _ _ hne⟩

/-- The single entry under hash `h` with its nonempty owner key `s` is
preserved by every loop iteration (first-writer-wins). -/
def OwnsHash (h s : String) (st : GState) : Prop :=
  (∃ e, dictLookup st.manifest h = some e ∧ e.sourceKey = s)
  ∧ countKey st.manifest h = 1

theorem processGPhoto_preserves_owner (classes : List String) (seed : ℕ)
    (h s : String) (hs : s ≠ "") (st : GState) (ph : GPhoto)
    (hinv : OwnsHash h s st) :
    OwnsHash h s (processGPhoto classes seed st ph) := by
  obtain ⟨⟨e, hle, hse⟩, hc1⟩ := hinv
  by_cases hph : ph.imgHash = some h
  · unfold processGPhoto
    split
    · exact ⟨⟨e, hle, hse⟩, hc1⟩
    · split
      · exact ⟨⟨e, hle, hse⟩, hc1⟩
      · split
        · exact ⟨⟨e, hle, hse⟩, hc1⟩
        · split
          · exact ⟨⟨e, hle, hse⟩, hc1⟩
          · next h' heq =>
            have hh' : h' = h := Option.some.inj (heq.symm.trans hph)
            subst hh'
            split
            · exact ⟨⟨e, hle, hse⟩, hc1⟩
            · next hdup =>
              split
              · exact ⟨⟨e, hle, hse⟩, hc1⟩
              · have hsk : srcKey ph = s := by
                  unfold is_dup at hdup
                  rw [hle] at hdup
                  simp only [Bool.not_eq_true, Bool.and_eq_false_iff] at hdup
                  rcases hdup with hdup | hdup
                  · exact absurd (hse.symm.trans (by simpa using hdup)) hs
                  · have h2 : e.sourceKey = srcKey ph := by simpa using hdup
                    rw [← h2, hse]
                exact ⟨⟨_, dictInsert_lookup_self _ _ _, hsk⟩,
                  (countKey_dictInsert_pos _ _ _ (by omega)).trans hc1⟩
  · obtain ⟨hl, hc⟩ := processGPhoto_other_hash classes seed st ph h hph
    exact ⟨⟨e, hl.trans hle, hse⟩, hc.trans hc1⟩

/-- The first writer of a hash installs its manifest entry. -/
theorem processGPhoto_first_write (classes : List String) (seed : ℕ)
    (st : GState) (ph : GPhoto) (h : String)
    (hc0 : countKey st.manifest h = 0)
    (hd : ph.decision = some "defect") (hb : ph.bboxes ≠ [])
    (hk : (split_kept ph.bboxes).1 ≠ []) (hh : ph.imgHash = some h)
    (hl : (build_lines classes (split_kept ph.bboxes).1).1 ≠ []) :
    OwnsHash h (srcKey ph) (processGPhoto classes seed st ph)
    ∧ (processGPhoto classes seed st ph).photos_included
        = st.photos_included + 1 := by
  have hdup : is_dup st.manifest h (srcKey ph) = false := by
    unfold is_dup
    rw [countKey_zero_lookup _ _ hc0]
  unfold processGPhoto
  rw [if_neg (not_not_intro hd), if_neg hb, if_neg hk]
  simp only [hh]
  rw [if_neg (by simp [hdup]), if_neg hl]
  exact ⟨⟨⟨_, dictInsert_lookup_self _ _ _, rfl⟩,
    countKey_dictInsert_zero _ _ _ hc0⟩, rfl⟩

/-- A later occurrence of an owned hash from a different source is
counted as a duplicate and changes nothing else. -/
theorem processGPhoto_dup (classes : List String) (seed : ℕ)
    (st : GState) (ph : GPhoto) (h : String) (e : ManifestEntry)
    (hle : dictLookup st.manifest h = some e) (hs1 : e.sourceKey ≠ "")
    (hs2 : e.sourceKey ≠ srcKey ph)
    (hd : ph.decision = some "defect") (hb : ph.bboxes ≠ [])
    (hk : (split_kept ph.bboxes).1 ≠ []) (hh : ph.imgHash = some h) :
    processGPhoto classes seed st ph
      = { st with photos_scanned := st.photos_scanned + 1,
                  invalid_boxes_skipped :=
                    st.invalid_boxes_skipped + (split_kept ph.bboxes).2,
                  duplicates_skipped := st.duplicates_skipped + 1 } := by
  have hdup : is_dup st.manifest h (srcKey ph) = true := by
    unfold is_dup
    rw [hle]
    simp [hs1, hs2]
  unfold processGPhoto
  rw [if_neg (not_not_intro hd), if_neg hb, if_neg hk]
  simp only [hh]
  rw [if_pos hdup]

theorem foldl_preserves_owner (classes : List String) (seed : ℕ)
    (h s : String) (hs : s ≠ "") (l : List GPhoto) :
    ∀ st, OwnsHash h s st →
      OwnsHash h s (l.foldl (processGPhoto classes seed) st) := by
  induction l with
  | nil => intro st hst; exact hst
  | cons p ps ih =>
    intro st hst
    rw [List.foldl_cons]
    exact ih _ (processGPhoto_preserves_owner classes seed h s hs st p hst)

theorem foldl_preserves_zero (classes : List String) (seed : ℕ) (h : String)
    (l : List GPhoto) (hl : ∀ p ∈ l, p.imgHash ≠ some h) :
    ∀ st, countKey st.manifest h = 0 →
      countKey ((l.foldl (processGPhoto classes seed) st)).manifest h = 0 := by
  induction l with
  | nil => intro st hst; exact hst
  | cons p ps ih =>
    intro st hst
    rw [List.foldl_cons]
    refine ih (fun q hq => hl q (List.mem_cons_of_mem _ hq)) _ ?_
    rw [(processGPhoto_other_hash classes seed st p h
      (hl p (List.mem_cons_self _ _))).2]
    exact hst

/-- The manifest persisted by a build is the fold's manifest, whether
the minimum-size gate fires or not. -/
theorem build_persisted_manifest (stored : Option (List String))
    (m0 : List (String × ManifestEntry)) (photos : List GPhoto)
    (seed : ℕ) (minObj : Int) :
    (build_yolo_det_dataset_from_all_sessions stored m0 photos seed
      minObj).persisted_manifest = (buildFold stored m0 photos seed).manifest := by
  unfold build_yolo_det_dataset_from_all_sessions
  split
  · rfl
  · rfl

/-- C4: when two scanned photos (here from different sessions) carry
byte-identical images — the same content hash `h` — the global build
keeps exactly one manifest entry for `h`, owned by the first writer
(`source_key` of `p1`), and the second occurrence's loop step increments
`duplicates_skipped` by one while leaving `photos_included` and the
manifest unchanged. -/
theorem C4_dedup (stored : Option (List String))
    (m0 : List (String × ManifestEntry)) (pre mid post : List GPhoto)
    (p1 p2 : GPhoto) (seed : ℕ) (minObj : Int) (h : String)
    (hm0 : countKey m0 h = 0)
    (hpre : ∀ p ∈ pre, p.imgHash ≠ some h)
    (hp1d : p1.decision = some "defect") (hp1b : p1.bboxes ≠ [])
    (hp1k : (split_kept p1.bboxes).1 ≠ []) (hp1h : p1.imgHash = some h)
    (hp1l : (build_lines (globalClasses stored) (split_kept p1.bboxes).1).1 ≠ [])
    (hk1 : srcKey p1 ≠ "")
    (hp2d : p2.decision = some "defect") (hp2b : p2.bboxes ≠ [])
    (hp2k : (split_kept p2.bboxes).1 ≠ []) (hp2h : p2.imgHash = some h)
    (hne : srcKey p2 ≠ srcKey p1) :
    (∃ e, dictLookup (build_yolo_det_dataset_from_all_sessions stored m0
        (pre ++ p1 :: (mid ++ p2 :: post)) seed minObj).persisted_manifest h
        = some e
      ∧ e.sourceKey = srcKey p1)
    ∧ countKey (build_yolo_det_dataset_from_all_sessions stored m0
        (pre ++ p1 :: (mid ++ p2 :: post)) seed minObj).persisted_manifest h = 1
    ∧ processGPhoto (globalClasses stored) seed
        ((pre ++ p1 :: mid).foldl (processGPhoto (globalClasses stored) seed)
          ⟨m0, 0, 0, 0, 0, 0, 0⟩) p2
      = { ((pre ++ p1 :: mid).foldl (processGPhoto (globalClasses stored) seed)
            ⟨m0, 0, 0, 0, 0, 0, 0⟩) with
          photos_scanned :=
            ((pre ++ p1 :: mid).foldl (processGPhoto (globalClasses stored) seed)
              ⟨m0, 0, 0, 0, 0, 0, 0⟩).photos_scanned + 1,
          invalid_boxes_skipped :=
            ((pre ++ p1 :: mid).foldl (processGPhoto (globalClasses stored) seed)
              ⟨m0, 0, 0, 0, 0, 0, 0⟩).invalid_boxes_skipped
              + (split_kept p2.bboxes).2,
          duplicates_skipped :=
            ((pre ++ p1 :: mid).foldl (processGPhoto (globalClasses stored) seed)
              ⟨m0, 0, 0, 0, 0, 0, 0⟩).duplicates_skipped + 1 } := by
  have hzero_pre : countKey ((pre.foldl
      (processGPhoto (globalClasses stored) seed)
      ⟨m0, 0, 0, 0, 0, 0, 0⟩).manifest) h = 0 :=
    foldl_preserves_zero _ _ _ _ hpre _ hm0
  have hown1 := processGPhoto_first_write (globalClasses stored) seed _ p1 h
    hzero_pre hp1d hp1b hp1k hp1h hp1l
  have hmid_eq : (pre ++ p1 :: mid).foldl
      (processGPhoto (globalClasses stored) seed) ⟨m0, 0, 0, 0, 0, 0, 0⟩
      = mid.foldl (processGPhoto (globalClasses stored) seed)
          (processGPhoto (globalClasses stored) seed
            (pre.foldl (processGPhoto (globalClasses stored) seed)
              ⟨m0, 0, 0, 0, 0, 0, 0⟩) p1) := by
    rw [List.foldl_append, List.foldl_cons]
  have hmid : OwnsHash h (srcKey p1)
      ((pre ++ p1 :: mid).foldl (processGPhoto (globalClasses stored) seed)
        ⟨m0, 0, 0, 0, 0, 0, 0⟩) := by
    rw [hmid_eq]
    exact foldl_preserves_owner _ _ _ _ hk1 mid _ hown1.1
  obtain ⟨⟨e, hle, hse⟩, hc1⟩ := hmid
  have hdupstep := processGPhoto_dup (globalClasses stored) seed _ p2 h e hle
    (hse ▸ hk1) (hse ▸ Ne.symm hne) hp2d hp2b hp2k hp2h
  have hfull_eq : (pre ++ p1 :: (mid ++ p2 :: post)).foldl
      (processGPhoto (globalClasses stored) seed) ⟨m0, 0, 0, 0, 0, 0, 0⟩
      = post.foldl (processGPhoto (globalClasses stored) seed)
          (processGPhoto (globalClasses stored) seed
            ((pre ++ p1 :: mid).foldl
              (processGPhoto (globalClasses stored) seed)
              ⟨m0, 0, 0, 0, 0, 0, 0⟩) p2) := by
    have hlist : pre ++ p1 :: (mid ++ p2 :: post)
        = (pre ++ p1 :: mid) ++ p2 :: post := by simp
    rw [hlist, List.foldl_append, List.foldl_cons]
  have hown2 : OwnsHash h (srcKey p1)
      (processGPhoto (globalClasses stored) seed
        ((pre ++ p1 :: mid).foldl (processGPhoto (globalClasses stored) seed)
          ⟨m0, 0, 0, 0, 0, 0, 0⟩) p2) := by
    rw [hdupstep]
    exact ⟨⟨e, hle, hse⟩, hc1⟩
  have hfin : OwnsHash h (srcKey p1)
      ((pre ++ p1 :: (mid ++ p2 :: post)).foldl
        (processGPhoto (globalClasses stored) seed) ⟨m0, 0, 0, 0, 0, 0, 0⟩) := by
    rw [hfull_eq]
    exact foldl_preserves_owner _ _ _ _ hk1 post _ hown2
  rw [build_persisted_manifest]
  exact ⟨hfin.1, hfin.2, hdupstep⟩

/-- C5: whenever the built manifest holds fewer retained boxes than the
(normalized) minimum threshold, the build raises the descriptive
insufficient-data error reporting the threshold and the current count,
and the manifest and the `data.yaml` class list have been persisted
before the error is raised, so they remain queryable. -/
theorem C5_min_gate (stored : Option (List String))
    (m0 : List (String × ManifestEntry)) (photos : List GPhoto)
    (seed : ℕ) (minObj : Int)
    (hlow : totalObjects (buildFold stored m0 photos seed).manifest
      < min_obj_norm minObj) :
    (build_yolo_det_dataset_from_all_sessions stored m0 photos seed
        minObj).outcome
      = .error (insufficientMsg (min_obj_norm minObj)
          (totalObjects (buildFold stored m0 photos seed).manifest))
    ∧ (build_yolo_det_dataset_from_all_sessions stored m0 photos seed
        minObj).persisted_manifest
      = (buildFold stored m0 photos seed).manifest
    ∧ (build_yolo_det_dataset_from_all_sessions stored m0 photos seed
        minObj).persisted_yaml_classes = some (globalClasses stored) := by
  unfold build_yolo_det_dataset_from_all_sessions
  rw [if_pos hlow]
  exact ⟨rfl, rfl, rfl⟩

/-- A geometrically valid stored bbox for the C4/C5 witnesses. -/
def sampleGoodBBoxItem : RawItem :=
  .dict { id := none, cls := some "трещины", klass := none, nameField := none,
          x := some (some (1/10)), y := some (some (1/10)),
          w := some (some (2/10)), h := some (some (2/10)),
          conf := none, source := none, polygon := none }

/-- First writer: session `s1`, photo `p1`. -/
def samplePhoto1 : GPhoto :=
  { sessionId := "s1", photoId := "p1", decision := some "defect",
    bboxes := [sampleGoodBBoxItem], imgHash := some "aabbccdd" }

/-- Byte-identical duplicate from session `s2`. -/
def samplePhoto2 : GPhoto :=
  { sessionId := "s2", photoId := "p9", decision := some "defect",
    bboxes := [sampleGoodBBoxItem], imgHash := some "aabbccdd" }

/-- Witness for C4: two sessions with the byte-identical image. -/
theorem C4_dedup_witness :
    (∃ e, dictLookup (build_yolo_det_dataset_from_all_sessions
        (some DEFECT_CLASSES_RU) [] ([] ++ samplePhoto1 :: ([] ++ samplePhoto2 :: []))
        1337 1).persisted_manifest "aabbccdd" = some e
      ∧ e.sourceKey = srcKey samplePhoto1)
    ∧ countKey (build_yolo_det_dataset_from_all_sessions
        (some DEFECT_CLASSES_RU) [] ([] ++ samplePhoto1 :: ([] ++ samplePhoto2 :: []))
        1337 1).persisted_manifest "aabbccdd" = 1
    ∧ processGPhoto (globalClasses (some DEFECT_CLASSES_RU)) 1337
        (([] ++ samplePhoto1 :: []).foldl
          (processGPhoto (globalClasses (some DEFECT_CLASSES_RU)) 1337)
          ⟨[], 0, 0, 0, 0, 0, 0⟩) samplePhoto2
      = { (([] ++ samplePhoto1 :: []).foldl
            (processGPhoto (globalClasses (some DEFECT_CLASSES_RU)) 1337)
            ⟨[], 0, 0, 0, 0, 0, 0⟩) with
          photos_scanned :=
            (([] ++ samplePhoto1 :: []).foldl
              (processGPhoto (globalClasses (some DEFECT_CLASSES_RU)) 1337)
              ⟨[], 0, 0, 0, 0, 0, 0⟩).photos_scanned + 1,
          invalid_boxes_skipped :=
            (([] ++ samplePhoto1 :: []).foldl
              (processGPhoto (globalClasses (some DEFECT_CLASSES_RU)) 1337)
              ⟨[], 0, 0, 0, 0, 0, 0⟩).invalid_boxes_skipped
              + (split_kept samplePhoto2.bboxes).2,
          duplicates_skipped :=
            (([] ++ samplePhoto1 :: []).foldl
              (processGPhoto (globalClasses (some DEFECT_CLASSES_RU)) 1337)
              ⟨[], 0, 0, 0, 0, 0, 0⟩).duplicates_skipped + 1 } :=
  by
  have hk1 : (split_kept samplePhoto1.bboxes).1 ≠ [] := by
    norm_num [samplePhoto1, sampleGoodBBoxItem, split_kept, _bbox_ok, _safe_float]
  have hk2 : (split_kept samplePhoto2.bboxes).1 ≠ [] := by
    norm_num [samplePhoto2, sampleGoodBBoxItem, split_kept, _bbox_ok, _safe_float]
  have hl1 : (build_lines (globalClasses (some DEFECT_CLASSES_RU))
      (split_kept samplePhoto1.bboxes).1).1 ≠ [] := by
    norm_num [samplePhoto1, sampleGoodBBoxItem, split_kept, _bbox_ok, _safe_float,
      build_lines, gline_of, pyFloat]
  exact C4_dedup (some DEFECT_CLASSES_RU) [] [] [] [] samplePhoto1 samplePhoto2
    1337 1 "aabbccdd" (by decide) (by intro p hp; exact absurd hp (List.not_mem_nil p))
    (by decide) (by decide) hk1 (by decide) hl1 (by decide)
    (by decide) (by decide) hk2 (by decide) (by decide)

/-- Witness for C5: one photo with a single box against the default
threshold of 50. -/
theorem C5_min_gate_witness :
    totalObjects (buildFold (some DEFECT_CLASSES_RU) [] [samplePhoto1] 1337).manifest
      < min_obj_norm 50
    ∧ ((build_yolo_det_dataset_from_all_sessions (some DEFECT_CLASSES_RU) []
        [samplePhoto1] 1337 50).outcome
      = .error (insufficientMsg (min_obj_norm 50)
          (totalObjects
            (buildFold (some DEFECT_CLASSES_RU) [] [samplePhoto1] 1337).manifest))
      ∧ (build_yolo_det_dataset_from_all_sessions (some DEFECT_CLASSES_RU) []
          [samplePhoto1] 1337 50).persisted_manifest
        = (buildFold (some DEFECT_CLASSES_RU) [] [samplePhoto1] 1337).manifest
      ∧ (build_yolo_det_dataset_from_all_sessions (some DEFECT_CLASSES_RU) []
          [samplePhoto1] 1337 50).persisted_yaml_classes
        = some (globalClasses (some DEFECT_CLASSES_RU))) :=
  by
  have hlow : totalObjects (buildFold (some DEFECT_CLASSES_RU) []
      [samplePhoto1] 1337).manifest < min_obj_norm 50 := by
    norm_num [buildFold, processGPhoto, samplePhoto1, sampleGoodBBoxItem,
      split_kept, _bbox_ok, _safe_float, build_lines, gline_of, pyFloat,
      is_dup, dictLookup, dictInsert, totalObjects, min_obj_norm, srcKey,
      gphoto_entry]
  exact ⟨hlow, C5_min_gate (some DEFECT_CLASSES_RU) [] [samplePhoto1] 1337 50 hlow⟩

/-- Witness for C2 (amended) at a concrete registry and class names. -/
theorem C2_amended_witness :
    NormUnique (add_global_class (some DEFECT_CLASSES_RU) "новый дефект").1
    ∧ (∀ l, (add_global_class (some DEFECT_CLASSES_RU) "новый дефект").2 = some l →
        l = (add_global_class (some DEFECT_CLASSES_RU) "новый дефект").1)
    ∧ NormUnique (rename_global_class (some DEFECT_CLASSES_RU) "трещины" "щели большие").1
    ∧ (∀ l, (rename_global_class (some DEFECT_CLASSES_RU) "трещины" "щели большие").2 = some l →
        l = (rename_global_class (some DEFECT_CLASSES_RU) "трещины" "щели большие").1) :=
  C2_amended (some DEFECT_CLASSES_RU) "новый дефект" "трещины" "щели большие" (by decide)

end DefectViewer
